import Mathlib

/-!
# Certified-Budget-Boy: verification of the Balance Engine and Recurring Scheduler

A shallow embedding of the two core subsystems of the repository:

* `src/features/balance.py` — `BalanceService`: apply / reverse / rebuild of
  account balances;
* `src/features/recurring.py` — `RecurringModel`: the `run_due` scheduler,
  one-shot skip/override modifiers, pause handling, and the calendar
  arithmetic `_add_months` / `_calculate_next_due`.

Modelling conventions:

* Monetary amounts (Python floats holding decimal amounts) are modelled as
  exact integers `ℤ` (amounts in minor currency units).  The engine uses
  only addition, subtraction and order on amounts, so the algebra is the
  same; what is abstracted away is float rounding, which no property below
  depends on.
* The SQL stores are modelled by their row-level contracts: the `accounts`
  table is an association list `List (Nat × Account)`, the `transactions`
  table a `List Tx`, `SELECT ... WHERE account_id = %s AND is_deleted = 0`
  is `getAccount`, `UPDATE accounts SET balance = %s WHERE account_id = %s`
  is `setBalance`, and so on.  The audit-log sink (`audit_log` /
  `account_logs` inserts) is an external collaborator whose writes carry no
  information used by any property here, so those calls are not modelled.
* Python `datetime` values are a record of calendar fields; `timedelta`
  day arithmetic is computed through the standard civil-calendar/day-number
  conversion, which is exactly what `datetime ± timedelta(days=k)` computes.
* Exceptions are `Except` values.  One deliberate exception: in
  `run_due`'s pause branch the source reads `rec.override_used`, which is
  not a field of the `RecurringTransaction` dataclass; in Python this
  raises `AttributeError`, which the per-rule exception handler turns into
  a `failed` history row.  The embedding keeps that behaviour (see
  `processRule`).
* `RecurringModel.update` keeps only the keyword arguments whose names
  appear in its SAFE list (recurring.py:554-557) or its SENSITIVE list;
  `last_run_status` appears in neither, so every
  `update(..., last_run_status=...)` issued by `run_due` silently drops
  that field — no branch of `run_due` ever writes `last_run_status` to the
  rule row.  The embedding reflects this: the rule-row updates in
  `processRuleUnpaused` and `failedOutcome` carry no `last_run_status`.
* `AccountModel.update_account` raises
  `AccountNotFoundError(f"Account {account_id} not found or unchanged.")`
  when its UPDATE reports 0 affected rows (account_model.py:213-214);
  `_execute` returns `cursor.rowcount` for UPDATE statements, which with
  mysql-connector's default connection flags counts *changed* rows.  The
  balance-writing paths below (`setBalance`) abstract this check away — it
  can only fire when a write leaves every written column unchanged; the one
  place where that happens on the engine's main paths, the second of two
  back-to-back `rebuild_account_balance` calls, is modelled faithfully in
  `rebuild_account_balance_checked`.
-/

deriving instance DecidableEq for Except

namespace BudgetBoy

/- ================================================================
   Calendar arithmetic (src/features/recurring.py, _add_months and
   _calculate_next_due)
   ================================================================ -/

/-- Day number of a civil (proleptic Gregorian) date, days since 1970-01-01.
Standard civil-from-days/days-from-civil pair; this is the arithmetic
realised by Python's `datetime.date` ± `timedelta(days=k)`. -/
def daysFromCivil (yy mm dd : Int) : Int :=
  let y := if mm ≤ 2 then yy - 1 else yy
  let era := Int.fdiv y 400
  let yoe := y - era * 400
  let doy := Int.fdiv (153 * (mm + (if mm > 2 then -3 else 9)) + 2) 5 + dd - 1
  let doe := yoe * 365 + Int.fdiv yoe 4 - Int.fdiv yoe 100 + doy
  era * 146097 + doe - 719468

/-- Inverse of `daysFromCivil`: (year, month, day) of a day number. -/
def civilFromDays (z0 : Int) : Int × Int × Int :=
  let z := z0 + 719468
  let era := Int.fdiv z 146097
  let doe := z - era * 146097
  let yoe := Int.fdiv (doe - Int.fdiv doe 1460 + Int.fdiv doe 36524 - Int.fdiv doe 146096) 365
  let y := yoe + era * 400
  let doy := doe - (365 * yoe + Int.fdiv yoe 4 - Int.fdiv yoe 100)
  let mp := Int.fdiv (5 * doy + 2) 153
  let d := doy - Int.fdiv (153 * mp + 2) 5 + 1
  let m := mp + (if mp < 10 then 3 else -9)
  (if m ≤ 2 then y + 1 else y, m, d)

/-- A Python `datetime.datetime` value: calendar fields plus time-of-day. -/
structure Dt where
  year : Int
  month : Int
  day : Int
  hour : Nat
  minute : Nat
  second : Nat
  microsecond : Nat
deriving DecidableEq, Repr

/-- Day number of the date part of a datetime (`.date()` ordering key). -/
def Dt.dateDays (t : Dt) : Int := daysFromCivil t.year t.month t.day

/-- Total microseconds since the epoch: the ordering key of `datetime`
comparison (`next_due <= NOW()` in the due-selection query). -/
def Dt.stamp (t : Dt) : Int :=
  ((t.dateDays * 24 + (t.hour : Int)) * 60 + (t.minute : Int)) * 60 * 1000000
    + (t.second : Int) * 1000000 + (t.microsecond : Int)

/-- `datetime + timedelta(days=k)`: shift the date part, keep time-of-day. -/
def Dt.addDays (t : Dt) (k : Int) : Dt :=
  let c := civilFromDays (t.dateDays + k)
  { t with year := c.1, month := c.2.1, day := c.2.2 }

/-- `RecurringModel._add_months`: add `months` to `src`, capping the day to
the end of the target month (computed, as in the source, as the day of
"first of the next month minus one day"), preserving time-of-day; months ≤ 0
is a no-op. -/
def add_months (src : Dt) (months : Int) : Dt :=
  if months ≤ 0 then src
  else
    let total := src.month - 1 + months
    let year := src.year + Int.fdiv total 12
    let month := Int.emod total 12 + 1
    let nextMonth := if month = 12 then 1 else month + 1
    let nextMonthYear := if month = 12 then year + 1 else year
    let lastDayOfMonth := (civilFromDays (daysFromCivil nextMonthYear nextMonth 1 - 1)).2.2
    let day := min src.day lastDayOfMonth
    { src with year := year, month := month, day := day }

/-- `RecurringModel._calculate_next_due`: daily/weekly via day arithmetic,
monthly/yearly via `add_months`, anything else a validation error. -/
def calculate_next_due (frequency : String) (interval : Int) (last_due : Dt) :
    Except String Dt :=
  if frequency = "daily" then .ok (last_due.addDays interval)
  else if frequency = "weekly" then .ok (last_due.addDays (7 * interval))
  else if frequency = "monthly" then .ok (add_months last_due interval)
  else if frequency = "yearly" then .ok (add_months last_due (12 * interval))
  else .error ("Invalid frequency: " ++ frequency)

/-- Shorthand datetime constructor. -/
def dt (y m d : Int) (hh mi ss us : Nat) : Dt :=
  { year := y, month := m, day := d, hour := hh, minute := mi, second := ss,
    microsecond := us }

/- ================================================================
   Recurring Scheduler (src/features/recurring.py, RecurringModel.run_due)
   ================================================================ -/

/-- A `DATE` value (the `pause_until` column; `run_due` compares it against
`datetime.now().date()`). -/
structure DateOnly where
  year : Int
  month : Int
  day : Int
deriving DecidableEq, Repr

/-- Day-number key used for the date comparison `pause_until > now.date()`. -/
def DateOnly.days (d : DateOnly) : Int := daysFromCivil d.year d.month d.day

/-- A row of `recurring_transactions`, mirroring the `RecurringTransaction`
dataclass (the fields `run_due` touches).  Note there is no `override_used`
field: the dataclass does not define one. -/
structure RecurringTransaction where
  recurring_id : Nat
  frequency : String
  interval_value : Int
  next_due : Dt
  last_run : Option Dt
  last_run_status : String
  pause_until : Option DateOnly
  skip_next : Nat
  override_amount : Option ℤ
  amount : ℤ
  transaction_type : String
  account_id : Option Nat
  source_account_id : Option Nat
  destination_account_id : Option Nat
  is_active : Nat
  is_deleted : Nat
deriving DecidableEq, Repr

/-- A row of `recurring_logs`, as inserted by `_record_history`. -/
structure HistoryRec where
  recurring_id : Nat
  run_date : Dt
  amount_used : ℤ
  status : String
  override_used : Bool
  posted_transaction_id : Option Nat
  message : String
deriving DecidableEq, Repr

/-- The message of the `AttributeError` that the pause branch of `run_due`
raises by reading `rec.override_used`, a field `RecurringTransaction` does
not define. -/
def attributeErrorMsg : String :=
  "AttributeError: RecurringTransaction object has no attribute override_used"

/-- The outcome of processing one due rule inside `run_due`: the rule row
after its updates, the `recurring_logs` rows inserted, and the transaction
ids appended to `created_ids`. -/
structure RuleStepResult where
  rule : RecurringTransaction
  history : List HistoryRec
  created_ids : List Nat
deriving DecidableEq, Repr

/-- The per-rule exception handler of `run_due`: insert a `failed` history
row (with the raw row's base `amount` and `override_used=False`) and call
`self.update(rec_id, last_run_status="failed")`.  `last_run_status` is in
neither the SAFE list (recurring.py:554-557) nor the SENSITIVE list of
`update()`, so both of `update`'s write paths filter it out and the call
updates nothing: the rule row is left completely unchanged.  `ids` carries
any transaction id already appended to `created_ids` before the
exception. -/
def failedOutcome (now : Dt) (r : RecurringTransaction) (ids : List Nat)
    (msg : String) : RuleStepResult :=
  { rule := r,
    history := [{ recurring_id := r.recurring_id, run_date := now,
                  amount_used := r.amount, status := "failed",
                  override_used := false, posted_transaction_id := none,
                  message := msg }],
    created_ids := ids }

/-- The skip/post part of `run_due`'s per-rule loop (after the pause
check).  `post` models `_create_transaction` (the Ledger Store / Balance
Engine collaborator): it returns the created transaction id or raises.

Branches, as in the source:
* `skip_next == 1` — the rule update is
  `self.update(rec_id, skip_next=0, last_run_status="skipped")`; `update()`
  keeps only its SAFE fields (recurring.py:554-557), a list containing
  `skip_next` but not `last_run_status`, so the only change to the rule row
  is `skip_next := 0`.  A `skipped` row is recorded (whose `amount_used` is
  the override if present, and whose `override_used` is Python's
  `bool(rec.override_amount)`); nothing is posted, nothing advances;
* otherwise post a transaction for the override amount if present else the
  base amount; the new id is appended to `created_ids` *before* the
  next-due computation; then
  `self.update(rec_id, last_run=now, last_run_status="success",
  next_due=new_next, override_amount=None)` writes `last_run`, `next_due`
  and `override_amount` — `last_run_status` is again dropped by the SAFE
  filter — and a `generated` row is recorded.  Any exception lands in the
  handler of `failedOutcome`.
-/
def processRuleUnpaused (now : Dt)
    (post : RecurringTransaction → ℤ → Except String Nat)
    (r : RecurringTransaction) : RuleStepResult :=
  if r.skip_next = 1 then
    { rule := { r with skip_next := 0 },
      history := [{ recurring_id := r.recurring_id, run_date := now,
                    amount_used := r.override_amount.getD r.amount,
                    status := "skipped",
                    override_used := decide (r.override_amount.getD 0 ≠ 0),
                    posted_transaction_id := none,
                    message := "skip_next flag consumed." }],
      created_ids := [] }
  else
    let override_used := r.override_amount.isSome
    let amount_to_use := r.override_amount.getD r.amount
    match post r amount_to_use with
    | .error e => failedOutcome now r [] e
    | .ok new_tx_id =>
      match calculate_next_due r.frequency r.interval_value r.next_due with
      | .error e => failedOutcome now r [new_tx_id] e
      | .ok new_next =>
        { rule := { r with last_run := some now,
                           next_due := new_next,
                           override_amount := none },
          history := [{ recurring_id := r.recurring_id, run_date := now,
                        amount_used := amount_to_use,
                        status := "generated",
                        override_used := override_used,
                        posted_transaction_id := some new_tx_id,
                        message := "Auto-generated by recurring runner." }],
          created_ids := [new_tx_id] }

/-- The per-rule body of `run_due`: the pause check in front of
`processRuleUnpaused`. -/
def processRule (now : Dt)
    (post : RecurringTransaction → ℤ → Except String Nat)
    (r : RecurringTransaction) : RuleStepResult :=
  match r.pause_until with
  | some p =>
    if p.days > now.dateDays then failedOutcome now r [] attributeErrorMsg
    else processRuleUnpaused now post r
  | none => processRuleUnpaused now post r

/-- The due-selection query of `run_due`:
`is_deleted = 0 AND is_active = 1 AND next_due <= NOW()`. -/
def isDue (now : Dt) (r : RecurringTransaction) : Bool :=
  r.is_deleted = 0 ∧ r.is_active = 1 ∧ r.next_due.stamp ≤ now.stamp

/-- Result of one `run_due` invocation over the rule table: the processed
rules' final rows, the history rows written, and the returned
`created_ids`. -/
structure RunDueResult where
  rules : List RecurringTransaction
  history : List HistoryRec
  created_ids : List Nat
deriving DecidableEq, Repr

/-- `RecurringModel.run_due`: select the due rules, process each
independently, return all created transaction ids. -/
def run_due (now : Dt)
    (post : RecurringTransaction → ℤ → Except String Nat)
    (rules : List RecurringTransaction) : RunDueResult :=
  let results := (rules.filter (isDue now)).map (processRule now post)
  { rules := results.map (·.rule),
    history := (results.map (·.history)).flatten,
    created_ids := (results.map (·.created_ids)).flatten }

/- ================================================================
   Balance Engine (src/features/balance.py, BalanceService)
   ================================================================ -/

/-- A row of the `accounts` table (the columns the Balance Engine reads and
writes). -/
structure Account where
  balance : ℤ
  opening_balance : ℤ
  is_active : Bool
  is_deleted : Bool
deriving DecidableEq, Repr

/-- The `accounts` table: rows keyed by `account_id`. -/
abbrev AccountMap := List (Nat × Account)

/-- `AccountModel.get_account` (default `include_deleted=False`):
`SELECT ... WHERE account_id = %s ... AND is_deleted = 0`, first match. -/
def getAccount : AccountMap → Nat → Option Account
  | [], _ => none
  | e :: rest, id =>
    if e.1 = id ∧ e.2.is_deleted = false then some e.2 else getAccount rest id

/-- `UPDATE accounts SET balance = %s WHERE account_id = %s` (the balance
write inside `AccountModel.update_account`). -/
def setBalance : AccountMap → Nat → ℤ → AccountMap
  | [], _, _ => []
  | e :: rest, id, b =>
    (if e.1 = id then (e.1, { e.2 with balance := b }) else e) :: setBalance rest id b

/-- A row of the `transactions` table (the columns the Balance Engine
reads). -/
structure Tx where
  transaction_id : Nat
  transaction_type : String
  amount : ℤ
  account_id : Option Nat
  source_account_id : Option Nat
  destination_account_id : Option Nat
  is_deleted : Bool
deriving DecidableEq, Repr

/-- The Balance Engine's error taxonomy: `InsufficientFundsError` and
`BalanceValidationError` (`AccountNotFoundError` is re-raised by
`_validate_account_active` as a validation error). -/
inductive BalanceErr
  | insufficientFunds
  | validation (msg : String)
deriving DecidableEq, Repr

/-- The per-account change report returned by `_apply_credit` /
`_apply_debit` and per side of `_apply_transfer`. -/
structure BalanceChange where
  account_id : Nat
  old_balance : ℤ
  new_balance : ℤ
  change : ℤ
deriving DecidableEq, Repr

/-- Return value of `apply_transaction_change` / `reverse_transaction_change`:
one change for credit/debit types, a source/destination pair for
transfer-shaped types. -/
inductive ApplyResult
  | single (c : BalanceChange)
  | double (src dst : BalanceChange)
deriving DecidableEq, Repr

/-- `BalanceService._validate_account_active`.  The argument is the raw
(possibly `None`) account id the Python code passes around; a `None` id
finds no row and surfaces as a validation error, as in the source. -/
def validate_account_active (m : AccountMap) (o : Option Nat) :
    Except BalanceErr (Nat × Account) :=
  match o with
  | none => .error (.validation "Account not found")
  | some id =>
    match getAccount m id with
    | none => .error (.validation "Account not found")
    | some a =>
      if a.is_active = true then .ok (id, a)
      else .error (.validation "Account is not active")

/-- `BalanceService._check_sufficient_funds`: validates the account, then
fails with `InsufficientFundsError` if overdraft is not allowed and the
balance is below the required amount. -/
def check_sufficient_funds (m : AccountMap) (o : Option Nat) (amount : ℤ)
    (allow_overdraft : Bool) : Except BalanceErr Unit :=
  match validate_account_active m o with
  | .error e => .error e
  | .ok (_, a) =>
    if allow_overdraft = false ∧ a.balance < amount then
      .error .insufficientFunds
    else .ok ()

/-- `BalanceService._apply_credit`: `balance += amount`. -/
def apply_credit (m : AccountMap) (o : Option Nat) (amount : ℤ) :
    Except BalanceErr (AccountMap × BalanceChange) :=
  match validate_account_active m o with
  | .error e => .error e
  | .ok (id, a) =>
    .ok (setBalance m id (a.balance + amount),
         { account_id := id, old_balance := a.balance,
           new_balance := a.balance + amount, change := amount })

/-- `BalanceService._apply_debit`: funds check, then `balance -= amount`. -/
def apply_debit (m : AccountMap) (o : Option Nat) (amount : ℤ)
    (allow_overdraft : Bool) : Except BalanceErr (AccountMap × BalanceChange) :=
  match check_sufficient_funds m o amount allow_overdraft with
  | .error e => .error e
  | .ok _ =>
    match validate_account_active m o with
    | .error e => .error e
    | .ok (id, a) =>
      .ok (setBalance m id (a.balance - amount),
           { account_id := id, old_balance := a.balance,
             new_balance := a.balance - amount, change := -amount })

/-- `BalanceService._apply_transfer`: same-account check, funds check on the
source, both accounts validated, then debit the source and credit the
destination (both old balances read before either write, as in the
source). -/
def apply_transfer (m : AccountMap) (srcO dstO : Option Nat) (amount : ℤ)
    (allow_overdraft : Bool) : Except BalanceErr (AccountMap × ApplyResult) :=
  if srcO = dstO then .error (.validation "Cannot transfer to the same account")
  else
    match check_sufficient_funds m srcO amount allow_overdraft with
    | .error e => .error e
    | .ok _ =>
      match validate_account_active m srcO with
      | .error e => .error e
      | .ok (sid, sa) =>
        match validate_account_active m dstO with
        | .error e => .error e
        | .ok (did, da) =>
          .ok (setBalance (setBalance m sid (sa.balance - amount)) did
                 (da.balance + amount),
               .double
                 { account_id := sid, old_balance := sa.balance,
                   new_balance := sa.balance - amount, change := -amount }
                 { account_id := did, old_balance := da.balance,
                   new_balance := da.balance + amount, change := amount })

/-- `BalanceService.apply_transaction_change`: dispatch on the transaction
type.  The `if not account_id` / `if not source_account_id or not
destination_account_id` guards follow Python falsiness (`None` or `0`). -/
def apply_transaction_change (m : AccountMap) (transaction_type : String)
    (amount : ℤ) (account_id source_account_id destination_account_id : Option Nat)
    (allow_overdraft : Bool) : Except BalanceErr (AccountMap × ApplyResult) :=
  if transaction_type = "income" ∨ transaction_type = "debt_borrowed" then
    if account_id.getD 0 = 0 then .error (.validation "account_id required for income")
    else
      match apply_credit m account_id amount with
      | .error e => .error e
      | .ok (m', c) => .ok (m', .single c)
  else if transaction_type = "expense" ∨ transaction_type = "debt_repaid" then
    if account_id.getD 0 = 0 then .error (.validation "account_id required for expense")
    else
      match apply_debit m account_id amount allow_overdraft with
      | .error e => .error e
      | .ok (m', c) => .ok (m', .single c)
  else if transaction_type = "transfer" ∨ transaction_type = "investment_deposit"
      ∨ transaction_type = "investment_withdraw" then
    if source_account_id.getD 0 = 0 ∨ destination_account_id.getD 0 = 0 then
      .error (.validation "source_account_id and destination_account_id required for transfer")
    else apply_transfer m source_account_id destination_account_id amount allow_overdraft
  else .error (.validation "Unknown transaction type")

/-- `BalanceService.reverse_transaction_change` (`_reverse_transaction`):
credit types are reversed by a debit with overdraft allowed, debit types by
a credit, transfer-shaped types by a transfer with source and destination
swapped and overdraft allowed. -/
def reverse_transaction_change (m : AccountMap) (tx : Tx) :
    Except BalanceErr (AccountMap × ApplyResult) :=
  if tx.transaction_type = "income" ∨ tx.transaction_type = "debt_borrowed" then
    match apply_debit m tx.account_id tx.amount true with
    | .error e => .error e
    | .ok (m', c) => .ok (m', .single c)
  else if tx.transaction_type = "debt_repaid" ∨ tx.transaction_type = "expense" then
    match apply_credit m tx.account_id tx.amount with
    | .error e => .error e
    | .ok (m', c) => .ok (m', .single c)
  else if tx.transaction_type = "transfer" ∨ tx.transaction_type = "investment_deposit"
      ∨ tx.transaction_type = "investment_withdraw" then
    apply_transfer m tx.destination_account_id tx.source_account_id tx.amount true
  else .error (.validation "Unknown transaction type")

/-- The signed effect of one transaction row on one account, exactly the
branch structure of the replay loop inside `rebuild_account_balance`
(income/debt_borrowed add, expense/debt_repaid subtract, transfer-shaped
types subtract for the source account and add for the destination). -/
def txEffect (id : Nat) (tx : Tx) : ℤ :=
  if (tx.transaction_type = "income" ∨ tx.transaction_type = "debt_borrowed")
      ∧ tx.account_id = some id then tx.amount
  else if (tx.transaction_type = "expense" ∨ tx.transaction_type = "debt_repaid")
      ∧ tx.account_id = some id then -tx.amount
  else if tx.transaction_type = "transfer" ∨ tx.transaction_type = "investment_deposit"
      ∨ tx.transaction_type = "investment_withdraw" then
    if tx.source_account_id = some id then -tx.amount
    else if tx.destination_account_id = some id then tx.amount
    else 0
  else 0

/-- The rows selected by `rebuild_account_balance`'s query: non-deleted
transactions referencing the account. -/
def rebuildRows (id : Nat) (l : List Tx) : List Tx :=
  l.filter (fun tx => decide (tx.is_deleted = false
    ∧ (tx.account_id = some id ∨ tx.source_account_id = some id
        ∨ tx.destination_account_id = some id)))

/-- The signed sum of effects of all non-deleted transactions referencing
an account — the quantity the balance invariant compares the stored balance
against. -/
def ledgerSum (id : Nat) (l : List Tx) : ℤ :=
  (rebuildRows id l).foldl (fun acc tx => acc + txEffect id tx) 0

/-- State of the Balance Engine's world: the `accounts` table and the
`transactions` table (the ledger, in `transaction_date, transaction_id`
order). -/
structure BState where
  accounts : AccountMap
  ledger : List Tx
deriving DecidableEq, Repr

/-- Return value of `rebuild_account_balance`. -/
structure RebuildResult where
  account_id : Nat
  old_balance : ℤ
  new_balance : ℤ
  difference : ℤ
  transactions_processed : Nat
deriving DecidableEq, Repr

/-- `BalanceService.rebuild_account_balance`: validate the account, replay
all non-deleted transactions referencing it starting from the opening
balance, overwrite the stored balance, and report the delta.  The final
write `update_account(account_id, source="BALANCE_REBUILD",
balance=calculated_balance)` is modelled as a bare `setBalance`;
`update_account`'s changed-row check, under which a write that changes
nothing raises instead of succeeding, is modelled separately in
`rebuild_account_balance_checked` below. -/
def rebuild_account_balance (s : BState) (account_id : Nat) :
    Except BalanceErr (BState × RebuildResult) :=
  match validate_account_active s.accounts (some account_id) with
  | .error e => .error e
  | .ok (_, a) =>
    let txs := rebuildRows account_id s.ledger
    let calculated_balance := txs.foldl (fun acc tx => acc + txEffect account_id tx)
      a.opening_balance
    .ok ({ s with accounts := setBalance s.accounts account_id calculated_balance },
         { account_id := account_id, old_balance := a.balance,
           new_balance := calculated_balance,
           difference := calculated_balance - a.balance,
           transactions_processed := txs.length })

/-- The row count reported by the UPDATE that `update_account` issues for
`rebuild_account_balance`:
`UPDATE accounts SET source=%s, balance=%s WHERE account_id = %s AND owner_id = %s`.
`_execute` returns `cursor.rowcount` for UPDATE statements
(account_model.py:72-74); with mysql-connector's default connection flags
this counts rows actually *changed*, so the matched row contributes 1
exactly when the written `(source, balance)` pair differs from the stored
one. -/
def update_account_rowcount (storedSource : String) (storedBalance : ℤ)
    (newSource : String) (newBalance : ℤ) : Nat :=
  if storedSource = newSource ∧ storedBalance = newBalance then 0 else 1

/-- The exceptions that can escape `rebuild_account_balance`: the
`BalanceValidationError` / `InsufficientFundsError` family raised by the
service itself, and the `AccountNotFoundError` raised by
`AccountModel.update_account` when its UPDATE changes no row
(account_model.py:213-214) — `rebuild_account_balance` does not catch the
latter, so it propagates to the caller. -/
inductive RebuildRaise
  | balanceErr (e : BalanceErr)
  | accountNotFound (msg : String)
deriving DecidableEq, Repr

/-- `BalanceService.rebuild_account_balance` with its balance write
modelled through `update_account`'s changed-row check rather than a bare
`setBalance`: the write is
`update_account(account_id, source="BALANCE_REBUILD", balance=calculated_balance)`,
and `update_account` raises
`AccountNotFoundError(f"Account {account_id} not found or unchanged.")`
whenever the UPDATE changed no row.  `accountSource` is the stored value of
the account row's `source` column at call time — that column is not among
the `Accounts` dataclass fields (`get_account` filters it out of the row),
which is why the `Account` record above does not carry it and it is passed
here explicitly. -/
def rebuild_account_balance_checked (s : BState) (accountSource : String)
    (account_id : Nat) : Except RebuildRaise (BState × RebuildResult) :=
  match validate_account_active s.accounts (some account_id) with
  | .error e => .error (.balanceErr e)
  | .ok (_, a) =>
    let txs := rebuildRows account_id s.ledger
    let calculated_balance := txs.foldl (fun acc tx => acc + txEffect account_id tx)
      a.opening_balance
    if update_account_rowcount accountSource a.balance "BALANCE_REBUILD"
        calculated_balance = 0 then
      .error (.accountNotFound
        ("Account " ++ toString account_id ++ " not found or unchanged."))
    else
      .ok ({ s with accounts := setBalance s.accounts account_id calculated_balance },
           { account_id := account_id, old_balance := a.balance,
             new_balance := calculated_balance,
             difference := calculated_balance - a.balance,
             transactions_processed := txs.length })

/- ================================================================
   The Balance Engine's operations coupled to the ledger.

   `apply_transaction_change` is invoked by
   `TransactionModel.create_transaction`, which inserts the ledger row and
   rolls the insert back if the balance application fails, and
   `reverse_transaction_change` is invoked when a live transaction is
   soft-deleted (`delete_transaction` / the update path).  The operation
   layer below models that coupling — each engine call paired with its
   ledger write, all-or-nothing — which is the "when correctly maintained"
   regime of the invariant in spec §3.  The freshness guard on `apply`
   models the primary key of `transactions`; the liveness guard on
   `reverse` models that a transaction's effects are reversed once, when it
   is deleted.
   ================================================================ -/

/-- Operations of the Balance Engine, as driven by its callers. -/
inductive LOp where
  | apply (tx : Tx) (allow_overdraft : Bool)
  | reverse (transaction_id : Nat)
  | rebuild (account_id : Nat)
deriving DecidableEq, Repr

/-- `SELECT ... FROM transactions WHERE transaction_id = %s`, first match. -/
def findTx : List Tx → Nat → Option Tx
  | [], _ => none
  | tx :: rest, id => if tx.transaction_id = id then some tx else findTx rest id

/-- `UPDATE transactions SET is_deleted = 1 WHERE transaction_id = %s`. -/
def markDeleted : List Tx → Nat → List Tx
  | [], _ => []
  | tx :: rest, id =>
    (if tx.transaction_id = id then { tx with is_deleted := true } else tx)
      :: markDeleted rest id

/-- One engine operation against the world state.  A failed engine call
leaves the state unchanged (the caller rolls back its ledger write). -/
def stepOp (s : BState) : LOp → BState
  | .apply tx allow =>
    if s.ledger.any (fun t => decide (t.transaction_id = tx.transaction_id)) then s
    else
      match apply_transaction_change s.accounts tx.transaction_type tx.amount
          tx.account_id tx.source_account_id tx.destination_account_id allow with
      | .ok (m, _) => { accounts := m, ledger := s.ledger ++ [{ tx with is_deleted := false }] }
      | .error _ => s
  | .reverse txid =>
    match findTx s.ledger txid with
    | none => s
    | some tx =>
      if tx.is_deleted then s
      else
        match reverse_transaction_change s.accounts tx with
        | .ok (m, _) => { accounts := m, ledger := markDeleted s.ledger txid }
        | .error _ => s
  | .rebuild id =>
    match rebuild_account_balance s id with
    | .ok (s', _) => s'
    | .error _ => s

/-- Run a sequence of engine operations. -/
def runOps (s : BState) : List LOp → BState
  | [] => s
  | op :: ops => runOps (stepOp s op) ops

/-- The balance invariant of spec §3/§8: every visible (non-deleted)
account row's stored balance equals its opening balance plus the signed sum
of all non-deleted transactions referencing it. -/
def balanceInvariant (s : BState) : Prop :=
  ∀ e ∈ s.accounts, e.2.is_deleted = false →
    e.2.balance = e.2.opening_balance + ledgerSum e.1 s.ledger

/-- Well-formed world: primary keys of both tables are unique, and the
balance invariant holds. -/
def WF (s : BState) : Prop :=
  (s.accounts.map Prod.fst).Nodup ∧ (s.ledger.map Tx.transaction_id).Nodup
    ∧ balanceInvariant s

instance (s : BState) : Decidable (balanceInvariant s) :=
  inferInstanceAs (Decidable (∀ e ∈ s.accounts, e.2.is_deleted = false →
    e.2.balance = e.2.opening_balance + ledgerSum e.1 s.ledger))

instance (s : BState) : Decidable (WF s) :=
  inferInstanceAs (Decidable (_ ∧ _ ∧ balanceInvariant s))

/- ================================================================
   Concrete data used by the closed examples and witnesses below
   ================================================================ -/

/-- A fixed "now" for the scheduler examples. -/
def nowRun : Dt := dt 2026 10 12 12 0 0 0

/-- A posting collaborator that always succeeds with transaction id 99. -/
def postOk : RecurringTransaction → ℤ → Except String Nat := fun _ _ => .ok 99

/-- A posting collaborator that always raises. -/
def postFail : RecurringTransaction → ℤ → Except String Nat :=
  fun _ _ => .error "simulated database failure"

/-- A posting collaborator that raises exactly for rule 2. -/
def postSecondFails : RecurringTransaction → ℤ → Except String Nat :=
  fun r _ =>
    if r.recurring_id = 2 then .error "insufficient funds"
    else .ok (100 + r.recurring_id)

/-- A due monthly expense rule. -/
def baseRule : RecurringTransaction :=
  { recurring_id := 7, frequency := "monthly", interval_value := 1,
    next_due := dt 2026 10 1 0 0 0 0, last_run := none,
    last_run_status := "success", pause_until := none, skip_next := 0,
    override_amount := none, amount := 100, transaction_type := "expense",
    account_id := some 1, source_account_id := none,
    destination_account_id := none, is_active := 1, is_deleted := 0 }

/-- `baseRule`, paused until a date in the future of `nowRun`. -/
def pausedRule : RecurringTransaction :=
  { baseRule with pause_until := some { year := 2026, month := 12, day := 1 } }

/-- `baseRule` with a one-time override of 50. -/
def overrideRule : RecurringTransaction :=
  { baseRule with override_amount := some 50 }

/-- `baseRule` with `skip_next` set. -/
def skipRule : RecurringTransaction :=
  { baseRule with skip_next := 1 }

/-- `baseRule` with both `skip_next` and an override set. -/
def skipOverrideRule : RecurringTransaction :=
  { baseRule with skip_next := 1, override_amount := some 50 }

/-- Three due rules for the batch-isolation example. -/
def batchRule1 : RecurringTransaction := { baseRule with recurring_id := 1 }

def batchRule2 : RecurringTransaction := { baseRule with recurring_id := 2 }

def batchRule3 : RecurringTransaction := { baseRule with recurring_id := 3 }

/-- Two active accounts for the balance examples. -/
def acctA : Account :=
  { balance := 500, opening_balance := 500, is_active := true, is_deleted := false }

def acctB : Account :=
  { balance := 300, opening_balance := 300, is_active := true, is_deleted := false }

def mW : AccountMap := [(1, acctA), (2, acctB)]

/-- A transfer of 200 from account 1 to account 2. -/
def txW : Tx :=
  { transaction_id := 10, transaction_type := "transfer", amount := 200,
    account_id := none, source_account_id := some 1,
    destination_account_id := some 2, is_deleted := false }

/-- The account table after applying `txW` to `mW`. -/
def mW2 : AccountMap :=
  [(1, { acctA with balance := 300 }), (2, { acctB with balance := 500 })]

/-- The change report of applying `txW` to `mW`. -/
def rW : ApplyResult :=
  .double
    { account_id := 1, old_balance := 500, new_balance := 300, change := -200 }
    { account_id := 2, old_balance := 300, new_balance := 500, change := 200 }

/-- An account with opening balance 1000 and a given stored balance. -/
def acct1000 (b : ℤ) : Account :=
  { balance := b, opening_balance := 1000, is_active := true, is_deleted := false }

/-- An expense of 200 from account 1. -/
def txExpense200 : Tx :=
  { transaction_id := 1, transaction_type := "expense", amount := 200,
    account_id := some 1, source_account_id := none,
    destination_account_id := none, is_deleted := false }

/-- An income of 500 into account 1. -/
def txIncome500 : Tx :=
  { transaction_id := 2, transaction_type := "income", amount := 500,
    account_id := some 1, source_account_id := none,
    destination_account_id := none, is_deleted := false }

/-- Initial world of the spec §8 end-to-end scenario: one account, opening
balance 1000, empty ledger. -/
def sInit : BState := { accounts := [(1, acct1000 1000)], ledger := [] }

/-- The §8 scenario: expense 200, income 500, reverse the expense, rebuild. -/
def opsDemo : List LOp :=
  [.apply txExpense200 false, .apply txIncome500 false, .reverse 1, .rebuild 1]

/-- A world whose stored balance (777) has drifted from the replayed value
(1000 - 200 = 800). -/
def sReb : BState :=
  { accounts := [(1, acct1000 777)], ledger := [txExpense200] }

/-- `sReb` after one rebuild of account 1. -/
def sReb1 : BState :=
  { accounts := [(1, acct1000 800)], ledger := [txExpense200] }

/-- The report of the first rebuild on `sReb`. -/
def rReb1 : RebuildResult :=
  { account_id := 1, old_balance := 777, new_balance := 800,
    difference := 23, transactions_processed := 1 }

/- ================================================================
   Store-level lemmas
   ================================================================ -/

theorem getAccount_setBalance_self (m : AccountMap) (id : Nat) (b : ℤ) :
    getAccount (setBalance m id b) id
      = (getAccount m id).map (fun a => { a with balance := b }) := by
  induction m with
  | nil => rfl
  | cons e rest ih =>
    simp only [setBalance]
    by_cases hi : e.1 = id
    · by_cases hd : e.2.is_deleted = false
      · simp [getAccount, hi, hd]
      · simp only [Bool.not_eq_false] at hd
        simp [getAccount, hi, hd, ih]
    · simp [getAccount, hi, ih]

theorem getAccount_setBalance_ne (m : AccountMap) (id : Nat) (b : ℤ) (j : Nat)
    (hj : j ≠ id) : getAccount (setBalance m id b) j = getAccount m j := by
  induction m with
  | nil => rfl
  | cons e rest ih =>
    simp only [setBalance]
    by_cases hi : e.1 = id
    · have hidj : ¬ id = j := fun h => hj (h.symm)
      simp [getAccount, hi, hidj, ih]
    · by_cases hij : e.1 = j
      · have hjid : ¬ j = id := hj
        by_cases hd : e.2.is_deleted = false <;> simp [getAccount, hi, hij, hjid, hd, ih]
      · simp [getAccount, hi, hij, ih]

theorem setBalance_map_fst (m : AccountMap) (id : Nat) (b : ℤ) :
    (setBalance m id b).map Prod.fst = m.map Prod.fst := by
  induction m with
  | nil => rfl
  | cons e rest ih =>
    simp only [setBalance]
    by_cases hi : e.1 = id <;> simp [hi, ih]

/- ================================================================
   Inversion lemmas for the engine's operations
   ================================================================ -/

theorem validate_account_active_ok {m : AccountMap} {o : Option Nat}
    {id : Nat} {a : Account} (h : validate_account_active m o = .ok (id, a)) :
    o = some id ∧ getAccount m id = some a ∧ a.is_active = true := by
  cases o with
  | none => simp [validate_account_active] at h
  | some i =>
    cases hg : getAccount m i with
    | none => simp [validate_account_active, hg] at h
    | some a' =>
      by_cases ha : a'.is_active = true
      · simp only [validate_account_active, hg, if_pos ha, Except.ok.injEq,
          Prod.mk.injEq] at h
        obtain ⟨h1, h2⟩ := h
        subst h1; subst h2
        exact ⟨rfl, hg, ha⟩
      · simp [validate_account_active, hg, ha] at h

theorem apply_credit_ok {m : AccountMap} {o : Option Nat} {amount : ℤ}
    {m' : AccountMap} {c : BalanceChange}
    (h : apply_credit m o amount = .ok (m', c)) :
    ∃ id a, o = some id ∧ getAccount m id = some a ∧ a.is_active = true
      ∧ m' = setBalance m id (a.balance + amount)
      ∧ c = { account_id := id, old_balance := a.balance,
              new_balance := a.balance + amount, change := amount } := by
  cases hv : validate_account_active m o with
  | error e => simp [apply_credit, hv] at h
  | ok p =>
    obtain ⟨id, a⟩ := p
    obtain ⟨ho, hg, ha⟩ := validate_account_active_ok hv
    simp only [apply_credit, hv, Except.ok.injEq, Prod.mk.injEq] at h
    exact ⟨id, a, ho, hg, ha, h.1.symm, h.2.symm⟩

theorem apply_debit_ok {m : AccountMap} {o : Option Nat} {amount : ℤ}
    {allow : Bool} {m' : AccountMap} {c : BalanceChange}
    (h : apply_debit m o amount allow = .ok (m', c)) :
    ∃ id a, o = some id ∧ getAccount m id = some a ∧ a.is_active = true
      ∧ (allow = false → amount ≤ a.balance)
      ∧ m' = setBalance m id (a.balance - amount)
      ∧ c = { account_id := id, old_balance := a.balance,
              new_balance := a.balance - amount, change := -amount } := by
  cases hc : check_sufficient_funds m o amount allow with
  | error e => simp [apply_debit, hc] at h
  | ok u =>
    cases hv : validate_account_active m o with
    | error e => simp [apply_debit, hc, hv] at h
    | ok p =>
      obtain ⟨id, a⟩ := p
      obtain ⟨ho, hg, ha⟩ := validate_account_active_ok hv
      simp only [apply_debit, hc, hv, Except.ok.injEq, Prod.mk.injEq] at h
      refine ⟨id, a, ho, hg, ha, ?_, h.1.symm, h.2.symm⟩
      intro hallow
      subst hallow
      by_cases hlt : a.balance < amount
      · simp [check_sufficient_funds, hv, hlt] at hc
      · exact le_of_not_lt hlt

theorem apply_transfer_ok {m : AccountMap} {srcO dstO : Option Nat}
    {amount : ℤ} {allow : Bool} {m' : AccountMap} {r : ApplyResult}
    (h : apply_transfer m srcO dstO amount allow = .ok (m', r)) :
    ∃ sid sa did da, srcO = some sid ∧ dstO = some did ∧ sid ≠ did
      ∧ getAccount m sid = some sa ∧ sa.is_active = true
      ∧ getAccount m did = some da ∧ da.is_active = true
      ∧ (allow = false → amount ≤ sa.balance)
      ∧ m' = setBalance (setBalance m sid (sa.balance - amount)) did
          (da.balance + amount)
      ∧ r = .double
          { account_id := sid, old_balance := sa.balance,
            new_balance := sa.balance - amount, change := -amount }
          { account_id := did, old_balance := da.balance,
            new_balance := da.balance + amount, change := amount } := by
  by_cases hsd : srcO = dstO
  · simp [apply_transfer, hsd] at h
  cases hc : check_sufficient_funds m srcO amount allow with
  | error e => simp [apply_transfer, hsd, hc] at h
  | ok u =>
    cases hv1 : validate_account_active m srcO with
    | error e => simp [apply_transfer, hsd, hc, hv1] at h
    | ok p1 =>
      cases hv2 : validate_account_active m dstO with
      | error e => simp [apply_transfer, hsd, hc, hv1, hv2] at h
      | ok p2 =>
        obtain ⟨sid, sa⟩ := p1
        obtain ⟨did, da⟩ := p2
        obtain ⟨hso, hsg, hsa⟩ := validate_account_active_ok hv1
        obtain ⟨hdo, hdg, hda⟩ := validate_account_active_ok hv2
        simp only [apply_transfer, if_neg hsd, hc, hv1, hv2,
          Except.ok.injEq, Prod.mk.injEq] at h
        refine ⟨sid, sa, did, da, hso, hdo, ?_, hsg, hsa, hdg, hda, ?_,
          h.1.symm, h.2.symm⟩
        · intro hEq
          exact hsd (by rw [hso, hdo, hEq])
        · intro hallow
          subst hallow
          by_cases hlt : sa.balance < amount
          · simp [check_sufficient_funds, hv1, hlt] at hc
          · exact le_of_not_lt hlt

/- ================================================================
   Pointwise balance deltas of apply / reverse
   ================================================================ -/

theorem account_eta (a : Account) : ({ a with balance := a.balance } : Account) = a := rfl

theorem map_balance_zero (x : Option Account) :
    x.map (fun a => { a with balance := a.balance + 0 }) = x := by
  cases x with
  | none => rfl
  | some a => simp [account_eta]

/-- Pointwise effect of a successful `apply_transaction_change` on every
account: the balance of account `j` moves by exactly `txEffect j tx`. -/
theorem apply_transaction_change_delta {m : AccountMap} {tx : Tx} {allow : Bool}
    {m' : AccountMap} {r : ApplyResult}
    (h : apply_transaction_change m tx.transaction_type tx.amount tx.account_id
      tx.source_account_id tx.destination_account_id allow = .ok (m', r))
    (j : Nat) :
    getAccount m' j = (getAccount m j).map
      (fun a => { a with balance := a.balance + txEffect j tx }) := by
  by_cases h1 : tx.transaction_type = "income" ∨ tx.transaction_type = "debt_borrowed"
  · simp only [apply_transaction_change, if_pos h1] at h
    by_cases hid0 : tx.account_id.getD 0 = 0
    · simp [hid0] at h
    · rw [if_neg hid0] at h
      cases hac : apply_credit m tx.account_id tx.amount with
      | error e => rw [hac] at h; exact absurd h (by simp)
      | ok p =>
        obtain ⟨mc, c⟩ := p
        rw [hac] at h
        simp only [Except.ok.injEq, Prod.mk.injEq] at h
        obtain ⟨hm, _⟩ := h
        subst hm
        obtain ⟨id, a, ho, hg, _, hms, _⟩ := apply_credit_ok hac
        subst hms
        by_cases hj : j = id
        · subst hj
          rw [getAccount_setBalance_self, hg]
          have he : txEffect j tx = tx.amount := by
            rcases h1 with h1 | h1 <;> simp [txEffect, h1, ho]
          simp [he]
        · rw [getAccount_setBalance_ne _ _ _ _ hj]
          have he : txEffect j tx = 0 := by
            have : ¬ tx.account_id = some j := by
              rw [ho]; exact fun hh => hj (by injection hh with hh; exact hh.symm)
            rcases h1 with h1 | h1 <;> simp [txEffect, h1, this]
          rw [he, map_balance_zero]
  · by_cases h2 : tx.transaction_type = "expense" ∨ tx.transaction_type = "debt_repaid"
    · simp only [apply_transaction_change, if_neg h1, if_pos h2] at h
      by_cases hid0 : tx.account_id.getD 0 = 0
      · simp [hid0] at h
      · rw [if_neg hid0] at h
        cases hac : apply_debit m tx.account_id tx.amount allow with
        | error e => rw [hac] at h; exact absurd h (by simp)
        | ok p =>
          obtain ⟨mc, c⟩ := p
          rw [hac] at h
          simp only [Except.ok.injEq, Prod.mk.injEq] at h
          obtain ⟨hm, _⟩ := h
          subst hm
          obtain ⟨id, a, ho, hg, _, _, hms, _⟩ := apply_debit_ok hac
          subst hms
          by_cases hj : j = id
          · subst hj
            rw [getAccount_setBalance_self, hg]
            have he : txEffect j tx = -tx.amount := by
              rcases h2 with h2 | h2 <;> simp [txEffect, h2, ho]
            simp [he, sub_eq_add_neg]
          · rw [getAccount_setBalance_ne _ _ _ _ hj]
            have he : txEffect j tx = 0 := by
              have : ¬ tx.account_id = some j := by
                rw [ho]; exact fun hh => hj (by injection hh with hh; exact hh.symm)
              rcases h2 with h2 | h2 <;> simp [txEffect, h2, this]
            rw [he, map_balance_zero]
    · by_cases h3 : tx.transaction_type = "transfer"
          ∨ tx.transaction_type = "investment_deposit"
          ∨ tx.transaction_type = "investment_withdraw"
      · simp only [apply_transaction_change, if_neg h1, if_neg h2, if_pos h3] at h
        by_cases hid0 : tx.source_account_id.getD 0 = 0 ∨ tx.destination_account_id.getD 0 = 0
        · simp [hid0] at h
        · rw [if_neg hid0] at h
          obtain ⟨sid, sa, did, da, hso, hdo, hsd, hsg, _, hdg, _, _, hms, _⟩ :=
            apply_transfer_ok h
          subst hms
          have hsj : ¬ tx.source_account_id = some j → tx.source_account_id = some sid
              → j ≠ sid := by
            intro hns hs hj
            exact hns (by rw [hs, hj])
          by_cases hjd : j = did
          · subst hjd
            rw [getAccount_setBalance_self,
              getAccount_setBalance_ne _ _ _ _ (fun hh => hsd (hh.symm)), hdg]
            have he : txEffect j tx = tx.amount := by
              have hnsrc : ¬ tx.source_account_id = some j := by
                rw [hso]
                simp only [Option.some.injEq]
                exact hsd
              rcases h3 with h3 | h3 | h3 <;> simp [txEffect, h3, hnsrc, hdo]
            simp [he]
          · rw [getAccount_setBalance_ne _ _ _ _ hjd]
            by_cases hjs : j = sid
            · subst hjs
              rw [getAccount_setBalance_self, hsg]
              have he : txEffect j tx = -tx.amount := by
                rcases h3 with h3 | h3 | h3 <;> simp [txEffect, h3, hso]
              simp [he, sub_eq_add_neg]
            · rw [getAccount_setBalance_ne _ _ _ _ hjs]
              have he : txEffect j tx = 0 := by
                have hnsrc : ¬ tx.source_account_id = some j := by
                  rw [hso]
                  exact fun hh => hjs (by injection hh with hh; exact hh.symm)
                have hndst : ¬ tx.destination_account_id = some j := by
                  rw [hdo]
                  exact fun hh => hjd (by injection hh with hh; exact hh.symm)
                rcases h3 with h3 | h3 | h3 <;> simp [txEffect, h3, hnsrc, hndst]
              rw [he, map_balance_zero]
      · simp [apply_transaction_change, if_neg h1, if_neg h2, if_neg h3] at h

/-- Pointwise effect of a successful `reverse_transaction_change`: the
balance of account `j` moves by exactly `-txEffect j tx`. -/
theorem reverse_transaction_change_delta {m : AccountMap} {tx : Tx}
    {m' : AccountMap} {r : ApplyResult}
    (h : reverse_transaction_change m tx = .ok (m', r)) (j : Nat) :
    getAccount m' j = (getAccount m j).map
      (fun a => { a with balance := a.balance - txEffect j tx }) := by
  by_cases h1 : tx.transaction_type = "income" ∨ tx.transaction_type = "debt_borrowed"
  · simp only [reverse_transaction_change, if_pos h1] at h
    cases hac : apply_debit m tx.account_id tx.amount true with
    | error e => rw [hac] at h; exact absurd h (by simp)
    | ok p =>
      obtain ⟨mc, c⟩ := p
      rw [hac] at h
      simp only [Except.ok.injEq, Prod.mk.injEq] at h
      obtain ⟨hm, _⟩ := h
      subst hm
      obtain ⟨id, a, ho, hg, _, _, hms, _⟩ := apply_debit_ok hac
      subst hms
      by_cases hj : j = id
      · subst hj
        rw [getAccount_setBalance_self, hg]
        have he : txEffect j tx = tx.amount := by
          rcases h1 with h1 | h1 <;> simp [txEffect, h1, ho]
        simp [he]
      · rw [getAccount_setBalance_ne _ _ _ _ hj]
        have he : txEffect j tx = 0 := by
          have hna : ¬ tx.account_id = some j := by
            rw [ho]
            simp only [Option.some.injEq]
            exact fun hh => hj hh.symm
          rcases h1 with h1 | h1 <;> simp [txEffect, h1, hna]
        rw [he]
        simp [map_balance_zero]
  · by_cases h2 : tx.transaction_type = "debt_repaid" ∨ tx.transaction_type = "expense"
    · simp only [reverse_transaction_change, if_neg h1, if_pos h2] at h
      cases hac : apply_credit m tx.account_id tx.amount with
      | error e => rw [hac] at h; exact absurd h (by simp)
      | ok p =>
        obtain ⟨mc, c⟩ := p
        rw [hac] at h
        simp only [Except.ok.injEq, Prod.mk.injEq] at h
        obtain ⟨hm, _⟩ := h
        subst hm
        obtain ⟨id, a, ho, hg, _, hms, _⟩ := apply_credit_ok hac
        subst hms
        by_cases hj : j = id
        · subst hj
          rw [getAccount_setBalance_self, hg]
          have he : txEffect j tx = -tx.amount := by
            rcases h2 with h2 | h2 <;> simp [txEffect, h2, ho]
          simp [he, sub_neg_eq_add]
        · rw [getAccount_setBalance_ne _ _ _ _ hj]
          have he : txEffect j tx = 0 := by
            have hna : ¬ tx.account_id = some j := by
              rw [ho]
              simp only [Option.some.injEq]
              exact fun hh => hj hh.symm
            rcases h2 with h2 | h2 <;> simp [txEffect, h2, hna]
          rw [he]
          simp [map_balance_zero]
    · by_cases h3 : tx.transaction_type = "transfer"
          ∨ tx.transaction_type = "investment_deposit"
          ∨ tx.transaction_type = "investment_withdraw"
      · simp only [reverse_transaction_change, if_neg h1, if_neg h2, if_pos h3] at h
        obtain ⟨d, da, s, sa, hdo, hso, hds, hdg, _, hsg, _, _, hms, _⟩ :=
          apply_transfer_ok h
        subst hms
        by_cases hjs : j = s
        · subst hjs
          rw [getAccount_setBalance_self,
            getAccount_setBalance_ne _ _ _ _ (fun hh => hds hh.symm), hsg]
          have he : txEffect j tx = -tx.amount := by
            rcases h3 with h3 | h3 | h3 <;> simp [txEffect, h3, hso]
          simp [he, sub_neg_eq_add]
        · rw [getAccount_setBalance_ne _ _ _ _ hjs]
          by_cases hjd : j = d
          · subst hjd
            rw [getAccount_setBalance_self, hdg]
            have he : txEffect j tx = tx.amount := by
              have hnsrc : ¬ tx.source_account_id = some j := by
                rw [hso]
                simp only [Option.some.injEq]
                exact fun hh => hds (hh.symm)
              rcases h3 with h3 | h3 | h3 <;> simp [txEffect, h3, hnsrc, hdo]
            simp [he]
          · rw [getAccount_setBalance_ne _ _ _ _ hjd]
            have he : txEffect j tx = 0 := by
              have hnsrc : ¬ tx.source_account_id = some j := by
                rw [hso]
                simp only [Option.some.injEq]
                exact fun hh => hjs hh.symm
              have hndst : ¬ tx.destination_account_id = some j := by
                rw [hdo]
                simp only [Option.some.injEq]
                exact fun hh => hjd hh.symm
              rcases h3 with h3 | h3 | h3 <;> simp [txEffect, h3, hnsrc, hndst]
            rw [he]
            simp [map_balance_zero]
      · simp [reverse_transaction_change, if_neg h1, if_neg h2, if_neg h3] at h

/-- A successful `apply_transaction_change` can always be reversed:
the touched accounts are still present and active (only their balances moved)
and reversal allows overdraft. -/
theorem reverse_ok_after_apply {m : AccountMap} {tx : Tx} {allow : Bool}
    {m' : AccountMap} {r : ApplyResult}
    (h : apply_transaction_change m tx.transaction_type tx.amount tx.account_id
      tx.source_account_id tx.destination_account_id allow = .ok (m', r)) :
    ∃ m'' r', reverse_transaction_change m' tx = .ok (m'', r') := by
  by_cases h1 : tx.transaction_type = "income" ∨ tx.transaction_type = "debt_borrowed"
  · simp only [apply_transaction_change, if_pos h1] at h
    by_cases hid0 : tx.account_id.getD 0 = 0
    · simp [hid0] at h
    · rw [if_neg hid0] at h
      cases hac : apply_credit m tx.account_id tx.amount with
      | error e => rw [hac] at h; exact absurd h (by simp)
      | ok p =>
        obtain ⟨mc, c⟩ := p
        rw [hac] at h
        simp only [Except.ok.injEq, Prod.mk.injEq] at h
        obtain ⟨hm, _⟩ := h
        subst hm
        obtain ⟨id, a, ho, hg, ha, hms, _⟩ := apply_credit_ok hac
        subst hms
        have hg' : getAccount (setBalance m id (a.balance + tx.amount)) id
            = some { a with balance := a.balance + tx.amount } := by
          rw [getAccount_setBalance_self, hg]; rfl
        have hval : validate_account_active (setBalance m id (a.balance + tx.amount))
            tx.account_id = .ok (id, { a with balance := a.balance + tx.amount }) := by
          rw [ho]
          simp [validate_account_active, hg', ha]
        have hchk : check_sufficient_funds (setBalance m id (a.balance + tx.amount))
            tx.account_id tx.amount true = .ok () := by
          simp [check_sufficient_funds, hval]
        cases hr : reverse_transaction_change (setBalance m id (a.balance + tx.amount)) tx with
        | ok q =>
          obtain ⟨m2, r2⟩ := q
          exact ⟨m2, r2, rfl⟩
        | error e =>
          simp [reverse_transaction_change, if_pos h1, apply_debit, hchk, hval] at hr
  · by_cases h2 : tx.transaction_type = "expense" ∨ tx.transaction_type = "debt_repaid"
    · simp only [apply_transaction_change, if_neg h1, if_pos h2] at h
      by_cases hid0 : tx.account_id.getD 0 = 0
      · simp [hid0] at h
      · rw [if_neg hid0] at h
        cases hac : apply_debit m tx.account_id tx.amount allow with
        | error e => rw [hac] at h; exact absurd h (by simp)
        | ok p =>
          obtain ⟨mc, c⟩ := p
          rw [hac] at h
          simp only [Except.ok.injEq, Prod.mk.injEq] at h
          obtain ⟨hm, _⟩ := h
          subst hm
          obtain ⟨id, a, ho, hg, ha, _, hms, _⟩ := apply_debit_ok hac
          subst hms
          have hg' : getAccount (setBalance m id (a.balance - tx.amount)) id
              = some { a with balance := a.balance - tx.amount } := by
            rw [getAccount_setBalance_self, hg]; rfl
          have hval : validate_account_active (setBalance m id (a.balance - tx.amount))
              tx.account_id = .ok (id, { a with balance := a.balance - tx.amount }) := by
            rw [ho]
            simp [validate_account_active, hg', ha]
          have h2' : tx.transaction_type = "debt_repaid" ∨ tx.transaction_type = "expense" :=
            h2.symm
          cases hr : reverse_transaction_change (setBalance m id (a.balance - tx.amount)) tx with
          | ok q =>
          obtain ⟨m2, r2⟩ := q
          exact ⟨m2, r2, rfl⟩
          | error e =>
            simp [reverse_transaction_change, if_neg h1, if_pos h2', apply_credit, hval] at hr
    · by_cases h3 : tx.transaction_type = "transfer"
          ∨ tx.transaction_type = "investment_deposit"
          ∨ tx.transaction_type = "investment_withdraw"
      · simp only [apply_transaction_change, if_neg h1, if_neg h2, if_pos h3] at h
        by_cases hid0 : tx.source_account_id.getD 0 = 0
            ∨ tx.destination_account_id.getD 0 = 0
        · simp [hid0] at h
        · rw [if_neg hid0] at h
          obtain ⟨sid, sa, did, da, hso, hdo, hsd, hsg, hsa, hdg, hda, _, hms, _⟩ :=
            apply_transfer_ok h
          subst hms
          have hdg' : getAccount (setBalance (setBalance m sid (sa.balance - tx.amount))
              did (da.balance + tx.amount)) did
              = some { da with balance := da.balance + tx.amount } := by
            rw [getAccount_setBalance_self,
              getAccount_setBalance_ne _ _ _ _ (fun hh => hsd hh.symm), hdg]
            rfl
          have hsg' : getAccount (setBalance (setBalance m sid (sa.balance - tx.amount))
              did (da.balance + tx.amount)) sid
              = some { sa with balance := sa.balance - tx.amount } := by
            rw [getAccount_setBalance_ne _ _ _ _ hsd, getAccount_setBalance_self, hsg]
            rfl
          have hvald : validate_account_active (setBalance (setBalance m sid
              (sa.balance - tx.amount)) did (da.balance + tx.amount))
              tx.destination_account_id
              = .ok (did, { da with balance := da.balance + tx.amount }) := by
            rw [hdo]
            simp [validate_account_active, hdg', hda]
          have hvals : validate_account_active (setBalance (setBalance m sid
              (sa.balance - tx.amount)) did (da.balance + tx.amount))
              tx.source_account_id
              = .ok (sid, { sa with balance := sa.balance - tx.amount }) := by
            rw [hso]
            simp [validate_account_active, hsg', hsa]
          have hchk : check_sufficient_funds (setBalance (setBalance m sid
              (sa.balance - tx.amount)) did (da.balance + tx.amount))
              tx.destination_account_id tx.amount true = .ok () := by
            simp [check_sufficient_funds, hvald]
          have hne : ¬ tx.destination_account_id = tx.source_account_id := by
            rw [hdo, hso]
            simp only [Option.some.injEq]
            exact fun hh => hsd hh.symm
          have h2' : ¬ (tx.transaction_type = "debt_repaid"
              ∨ tx.transaction_type = "expense") := fun hh => h2 hh.symm
          cases hr : reverse_transaction_change (setBalance (setBalance m sid
              (sa.balance - tx.amount)) did (da.balance + tx.amount)) tx with
          | ok q =>
            obtain ⟨m2, r2⟩ := q
            exact ⟨m2, r2, rfl⟩
          | error e =>
            simp [reverse_transaction_change, if_neg h1, if_neg h2', if_pos h3,
              apply_transfer, if_neg hne, hchk, hvald, hvals] at hr
      · simp [apply_transaction_change, if_neg h1, if_neg h2, if_neg h3] at h

/- ================================================================
   Ledger-sum lemmas
   ================================================================ -/

theorem txEffect_zero_of_not_ref {j : Nat} {tx : Tx}
    (ha : ¬ tx.account_id = some j) (hs : ¬ tx.source_account_id = some j)
    (hd : ¬ tx.destination_account_id = some j) : txEffect j tx = 0 := by
  simp [txEffect, ha, hs, hd]

theorem foldl_add_effect (j : Nat) (l : List Tx) (init : ℤ) :
    l.foldl (fun acc tx => acc + txEffect j tx) init
      = init + l.foldl (fun acc tx => acc + txEffect j tx) 0 := by
  induction l generalizing init with
  | nil => simp
  | cons t rest ih =>
    simp only [List.foldl_cons]
    rw [ih (init + txEffect j t), ih (0 + txEffect j t)]
    ring

theorem ledgerSum_cons (j : Nat) (t : Tx) (l : List Tx) :
    ledgerSum j (t :: l)
      = (if t.is_deleted = false ∧ (t.account_id = some j
          ∨ t.source_account_id = some j ∨ t.destination_account_id = some j)
          then txEffect j t else 0) + ledgerSum j l := by
  unfold ledgerSum rebuildRows
  by_cases hc : t.is_deleted = false ∧ (t.account_id = some j
      ∨ t.source_account_id = some j ∨ t.destination_account_id = some j)
  · rw [if_pos hc, List.filter_cons_of_pos (by simpa using hc), List.foldl_cons]
    rw [foldl_add_effect]
    ring
  · rw [if_neg hc, List.filter_cons_of_neg (by simpa using hc)]
    ring

theorem ledgerSum_cons_effect (j : Nat) (t : Tx) (l : List Tx)
    (hdel : t.is_deleted = false) :
    ledgerSum j (t :: l) = txEffect j t + ledgerSum j l := by
  rw [ledgerSum_cons]
  by_cases hr : t.account_id = some j ∨ t.source_account_id = some j
      ∨ t.destination_account_id = some j
  · rw [if_pos ⟨hdel, hr⟩]
  · rw [if_neg (fun hc => hr hc.2),
      txEffect_zero_of_not_ref (fun h => hr (Or.inl h))
        (fun h => hr (Or.inr (Or.inl h))) (fun h => hr (Or.inr (Or.inr h)))]

theorem ledgerSum_cons_deleted (j : Nat) (t : Tx) (l : List Tx)
    (hdel : t.is_deleted = true) :
    ledgerSum j (t :: l) = ledgerSum j l := by
  rw [ledgerSum_cons, if_neg (by simp [hdel]), zero_add]

theorem ledgerSum_append_single (j : Nat) (l : List Tx) (tx : Tx)
    (hdel : tx.is_deleted = false) :
    ledgerSum j (l ++ [tx]) = ledgerSum j l + txEffect j tx := by
  induction l with
  | nil =>
    simp only [List.nil_append]
    rw [ledgerSum_cons_effect _ _ _ hdel]
    simp [ledgerSum, rebuildRows]
  | cons t rest ih =>
    by_cases hd : t.is_deleted = false
    · rw [List.cons_append, ledgerSum_cons_effect _ _ _ hd,
        ledgerSum_cons_effect _ _ _ hd, ih]
      ring
    · simp only [Bool.not_eq_false] at hd
      rw [List.cons_append, ledgerSum_cons_deleted _ _ _ hd,
        ledgerSum_cons_deleted _ _ _ hd, ih]

theorem findTx_mem {l : List Tx} {id : Nat} {tx : Tx}
    (h : findTx l id = some tx) : tx ∈ l ∧ tx.transaction_id = id := by
  induction l with
  | nil => simp [findTx] at h
  | cons t rest ih =>
    by_cases ht : t.transaction_id = id
    · simp only [findTx, if_pos ht, Option.some.injEq] at h
      subst h
      exact ⟨List.mem_cons_self _ _, ht⟩
    · simp only [findTx, if_neg ht] at h
      obtain ⟨hm, hid⟩ := ih h
      exact ⟨List.mem_cons_of_mem _ hm, hid⟩

theorem markDeleted_of_not_present {l : List Tx} {id : Nat}
    (h : ∀ t ∈ l, t.transaction_id ≠ id) : markDeleted l id = l := by
  induction l with
  | nil => rfl
  | cons t rest ih =>
    simp only [markDeleted, if_neg (h t (List.mem_cons_self _ _))]
    rw [ih (fun t' ht' => h t' (List.mem_cons_of_mem _ ht'))]

theorem markDeleted_map_id (l : List Tx) (id : Nat) :
    (markDeleted l id).map Tx.transaction_id = l.map Tx.transaction_id := by
  induction l with
  | nil => rfl
  | cons t rest ih =>
    by_cases ht : t.transaction_id = id <;>
      simp [markDeleted, ht, ih]

theorem ledgerSum_markDeleted {l : List Tx} {id : Nat} {tx : Tx} (j : Nat)
    (hnd : (l.map Tx.transaction_id).Nodup)
    (hf : findTx l id = some tx) (hdel : tx.is_deleted = false) :
    ledgerSum j (markDeleted l id) = ledgerSum j l - txEffect j tx := by
  induction l with
  | nil => simp [findTx] at hf
  | cons t rest ih =>
    simp only [List.map_cons, List.nodup_cons] at hnd
    obtain ⟨hnin, hndrest⟩ := hnd
    by_cases ht : t.transaction_id = id
    · simp only [findTx, if_pos ht, Option.some.injEq] at hf
      subst hf
      have hrest : markDeleted rest id = rest := by
        refine markDeleted_of_not_present ?_
        intro t' ht' hcontra
        refine hnin ?_
        have hmem : t'.transaction_id ∈ List.map Tx.transaction_id rest :=
          List.mem_map_of_mem _ ht'
        rw [hcontra] at hmem
        rw [ht]
        exact hmem
      simp only [markDeleted, if_pos ht, hrest]
      rw [ledgerSum_cons_deleted _ _ _ rfl, ledgerSum_cons_effect _ _ _ hdel]
      ring
    · simp only [findTx, if_neg ht] at hf
      simp only [markDeleted, if_neg ht]
      by_cases hd : t.is_deleted = false
      · rw [ledgerSum_cons_effect _ _ _ hd, ledgerSum_cons_effect _ _ _ hd,
          ih hndrest hf]
        ring
      · simp only [Bool.not_eq_false] at hd
        rw [ledgerSum_cons_deleted _ _ _ hd, ledgerSum_cons_deleted _ _ _ hd,
          ih hndrest hf]

/- ================================================================
   Membership lemmas and operation shapes
   ================================================================ -/

theorem getAccount_mem {m : AccountMap} {id : Nat} {a : Account}
    (h : getAccount m id = some a) : (id, a) ∈ m ∧ a.is_deleted = false := by
  induction m with
  | nil => simp [getAccount] at h
  | cons e rest ih =>
    by_cases hc : e.1 = id ∧ e.2.is_deleted = false
    · simp only [getAccount, if_pos hc, Option.some.injEq] at h
      subst h
      refine ⟨?_, hc.2⟩
      rw [← hc.1]
      exact List.mem_cons_self _ _
    · simp only [getAccount, if_neg hc] at h
      obtain ⟨hm, hd⟩ := ih h
      exact ⟨List.mem_cons_of_mem _ hm, hd⟩

theorem mem_getAccount {m : AccountMap} {id : Nat} {a : Account}
    (hnd : (m.map Prod.fst).Nodup) (hmem : (id, a) ∈ m)
    (hdel : a.is_deleted = false) : getAccount m id = some a := by
  induction m with
  | nil => simp at hmem
  | cons e rest ih =>
    simp only [List.map_cons, List.nodup_cons] at hnd
    obtain ⟨hnin, hndrest⟩ := hnd
    rcases List.mem_cons.mp hmem with heq | hmem2
    · rw [← heq]
      simp [getAccount, hdel]
    · have hid : id ∈ rest.map Prod.fst := by
        have := List.mem_map_of_mem Prod.fst hmem2
        exact this
      have hne : ¬ e.1 = id := fun hh => hnin (hh ▸ hid)
      have hcond : ¬ (e.1 = id ∧ e.2.is_deleted = false) := fun hc => hne hc.1
      simp only [getAccount, if_neg hcond]
      exact ih hndrest hmem2

/-- A successful `apply_transaction_change` is a successful credit, debit or
transfer on the same map. -/
theorem apply_transaction_change_cases {m : AccountMap} {t : String} {am : ℤ}
    {accO srcO dstO : Option Nat} {allow : Bool} {m' : AccountMap}
    {r : ApplyResult}
    (h : apply_transaction_change m t am accO srcO dstO allow = .ok (m', r)) :
    (∃ c, apply_credit m accO am = .ok (m', c))
      ∨ (∃ c, apply_debit m accO am allow = .ok (m', c))
      ∨ apply_transfer m srcO dstO am allow = .ok (m', r) := by
  by_cases h1 : t = "income" ∨ t = "debt_borrowed"
  · simp only [apply_transaction_change, if_pos h1] at h
    by_cases hid0 : accO.getD 0 = 0
    · simp [hid0] at h
    · rw [if_neg hid0] at h
      cases hac : apply_credit m accO am with
      | error e => rw [hac] at h; exact absurd h (by simp)
      | ok p =>
        obtain ⟨mc, c⟩ := p
        rw [hac] at h
        simp only [Except.ok.injEq, Prod.mk.injEq] at h
        exact Or.inl ⟨c, by rw [h.1]⟩
  · by_cases h2 : t = "expense" ∨ t = "debt_repaid"
    · simp only [apply_transaction_change, if_neg h1, if_pos h2] at h
      by_cases hid0 : accO.getD 0 = 0
      · simp [hid0] at h
      · rw [if_neg hid0] at h
        cases hac : apply_debit m accO am allow with
        | error e => rw [hac] at h; exact absurd h (by simp)
        | ok p =>
          obtain ⟨mc, c⟩ := p
          rw [hac] at h
          simp only [Except.ok.injEq, Prod.mk.injEq] at h
          exact Or.inr (Or.inl ⟨c, by rw [h.1]⟩)
    · by_cases h3 : t = "transfer" ∨ t = "investment_deposit"
          ∨ t = "investment_withdraw"
      · simp only [apply_transaction_change, if_neg h1, if_neg h2, if_pos h3] at h
        by_cases hid0 : srcO.getD 0 = 0 ∨ dstO.getD 0 = 0
        · simp [hid0] at h
        · rw [if_neg hid0] at h
          exact Or.inr (Or.inr h)
      · simp [apply_transaction_change, if_neg h1, if_neg h2, if_neg h3] at h

/-- A successful `reverse_transaction_change` is a successful debit, credit
or swapped transfer on the same map. -/
theorem reverse_transaction_change_cases {m : AccountMap} {tx : Tx}
    {m' : AccountMap} {r : ApplyResult}
    (h : reverse_transaction_change m tx = .ok (m', r)) :
    (∃ c, apply_debit m tx.account_id tx.amount true = .ok (m', c))
      ∨ (∃ c, apply_credit m tx.account_id tx.amount = .ok (m', c))
      ∨ apply_transfer m tx.destination_account_id tx.source_account_id
          tx.amount true = .ok (m', r) := by
  by_cases h1 : tx.transaction_type = "income" ∨ tx.transaction_type = "debt_borrowed"
  · simp only [reverse_transaction_change, if_pos h1] at h
    cases hac : apply_debit m tx.account_id tx.amount true with
    | error e => rw [hac] at h; exact absurd h (by simp)
    | ok p =>
      obtain ⟨mc, c⟩ := p
      rw [hac] at h
      simp only [Except.ok.injEq, Prod.mk.injEq] at h
      exact Or.inl ⟨c, by rw [h.1]⟩
  · by_cases h2 : tx.transaction_type = "debt_repaid" ∨ tx.transaction_type = "expense"
    · simp only [reverse_transaction_change, if_neg h1, if_pos h2] at h
      cases hac : apply_credit m tx.account_id tx.amount with
      | error e => rw [hac] at h; exact absurd h (by simp)
      | ok p =>
        obtain ⟨mc, c⟩ := p
        rw [hac] at h
        simp only [Except.ok.injEq, Prod.mk.injEq] at h
        exact Or.inr (Or.inl ⟨c, by rw [h.1]⟩)
    · by_cases h3 : tx.transaction_type = "transfer"
          ∨ tx.transaction_type = "investment_deposit"
          ∨ tx.transaction_type = "investment_withdraw"
      · simp only [reverse_transaction_change, if_neg h1, if_neg h2, if_pos h3] at h
        exact Or.inr (Or.inr h)
      · simp [reverse_transaction_change, if_neg h1, if_neg h2, if_neg h3] at h

theorem apply_transaction_change_map_fst {m : AccountMap} {t : String} {am : ℤ}
    {accO srcO dstO : Option Nat} {allow : Bool} {m' : AccountMap}
    {r : ApplyResult}
    (h : apply_transaction_change m t am accO srcO dstO allow = .ok (m', r)) :
    m'.map Prod.fst = m.map Prod.fst := by
  rcases apply_transaction_change_cases h with ⟨c, hc⟩ | ⟨c, hc⟩ | hc
  · obtain ⟨id, a, _, _, _, hms, _⟩ := apply_credit_ok hc
    rw [hms, setBalance_map_fst]
  · obtain ⟨id, a, _, _, _, _, hms, _⟩ := apply_debit_ok hc
    rw [hms, setBalance_map_fst]
  · obtain ⟨sid, sa, did, da, _, _, _, _, _, _, _, _, hms, _⟩ := apply_transfer_ok hc
    rw [hms, setBalance_map_fst, setBalance_map_fst]

theorem reverse_transaction_change_map_fst {m : AccountMap} {tx : Tx}
    {m' : AccountMap} {r : ApplyResult}
    (h : reverse_transaction_change m tx = .ok (m', r)) :
    m'.map Prod.fst = m.map Prod.fst := by
  rcases reverse_transaction_change_cases h with ⟨c, hc⟩ | ⟨c, hc⟩ | hc
  · obtain ⟨id, a, _, _, _, _, hms, _⟩ := apply_debit_ok hc
    rw [hms, setBalance_map_fst]
  · obtain ⟨id, a, _, _, _, hms, _⟩ := apply_credit_ok hc
    rw [hms, setBalance_map_fst]
  · obtain ⟨sid, sa, did, da, _, _, _, _, _, _, _, _, hms, _⟩ := apply_transfer_ok hc
    rw [hms, setBalance_map_fst, setBalance_map_fst]

/- ================================================================
   Preservation of the balance invariant (claim C1 machinery)
   ================================================================ -/

theorem txEffect_mk_live (j : Nat) (tx : Tx) :
    txEffect j { tx with is_deleted := false } = txEffect j tx := rfl

theorem rebuild_foldl_eq (id : Nat) (l : List Tx) (opening : ℤ) :
    (rebuildRows id l).foldl (fun acc tx => acc + txEffect id tx) opening
      = opening + ledgerSum id l := by
  unfold ledgerSum
  rw [foldl_add_effect]

/-- One engine operation preserves well-formedness, and with it the balance
invariant. -/
theorem stepOp_WF {s : BState} (h : WF s) (op : LOp) : WF (stepOp s op) := by
  obtain ⟨hacc, htx, hinv⟩ := h
  cases op with
  | apply tx allow =>
    simp only [stepOp]
    by_cases hdup : s.ledger.any
        (fun t => decide (t.transaction_id = tx.transaction_id)) = true
    · rw [if_pos hdup]
      exact ⟨hacc, htx, hinv⟩
    · rw [if_neg hdup]
      cases ha : apply_transaction_change s.accounts tx.transaction_type
          tx.amount tx.account_id tx.source_account_id
          tx.destination_account_id allow with
      | error e => exact ⟨hacc, htx, hinv⟩
      | ok p =>
        obtain ⟨m', r⟩ := p
        have hnin : tx.transaction_id ∉ s.ledger.map Tx.transaction_id := by
          intro hmem
          apply hdup
          rw [List.any_eq_true]
          obtain ⟨t, htl, hteq⟩ := List.mem_map.mp hmem
          exact ⟨t, htl, by simp [hteq]⟩
        refine ⟨?_, ?_, ?_⟩
        · rw [apply_transaction_change_map_fst ha]
          exact hacc
        · rw [List.map_append, List.nodup_append]
          refine ⟨htx, List.nodup_singleton _, ?_⟩
          intro x hx hx2
          simp only [List.map_cons, List.map_nil, List.mem_singleton] at hx2
          subst hx2
          exact hnin hx
        · intro e hmem hdle
          have hndm' : (m'.map Prod.fst).Nodup := by
            rw [apply_transaction_change_map_fst ha]
            exact hacc
          have hget : getAccount m' e.1 = some e.2 :=
            mem_getAccount hndm' hmem hdle
          rw [apply_transaction_change_delta ha e.1] at hget
          cases hg0 : getAccount s.accounts e.1 with
          | none => rw [hg0] at hget; simp at hget
          | some a0 =>
            rw [hg0] at hget
            simp only [Option.map_some', Option.some.injEq] at hget
            have h0 := getAccount_mem hg0
            have hbal := hinv (e.1, a0) h0.1 h0.2
            rw [← hget]
            dsimp only
            rw [ledgerSum_append_single _ _ _ rfl, txEffect_mk_live, hbal]
            ring
  | reverse txid =>
    simp only [stepOp]
    cases hf : findTx s.ledger txid with
    | none => exact ⟨hacc, htx, hinv⟩
    | some tx =>
      dsimp only
      by_cases hdel : tx.is_deleted = true
      · rw [if_pos hdel]
        exact ⟨hacc, htx, hinv⟩
      · rw [if_neg hdel]
        have hdelf : tx.is_deleted = false := by
          simpa using hdel
        cases hr : reverse_transaction_change s.accounts tx with
        | error e => exact ⟨hacc, htx, hinv⟩
        | ok p =>
          obtain ⟨m', r⟩ := p
          refine ⟨?_, ?_, ?_⟩
          · rw [reverse_transaction_change_map_fst hr]
            exact hacc
          · rw [markDeleted_map_id]
            exact htx
          · intro e hmem hdle
            have hndm' : (m'.map Prod.fst).Nodup := by
              rw [reverse_transaction_change_map_fst hr]
              exact hacc
            have hget : getAccount m' e.1 = some e.2 :=
              mem_getAccount hndm' hmem hdle
            rw [reverse_transaction_change_delta hr e.1] at hget
            cases hg0 : getAccount s.accounts e.1 with
            | none => rw [hg0] at hget; simp at hget
            | some a0 =>
              rw [hg0] at hget
              simp only [Option.map_some', Option.some.injEq] at hget
              have h0 := getAccount_mem hg0
              have hbal := hinv (e.1, a0) h0.1 h0.2
              rw [← hget]
              dsimp only
              rw [ledgerSum_markDeleted e.1 htx hf hdelf, hbal]
              ring
  | rebuild id =>
    simp only [stepOp]
    cases hrb : rebuild_account_balance s id with
    | error e => exact ⟨hacc, htx, hinv⟩
    | ok p =>
      obtain ⟨s', res⟩ := p
      cases hv : validate_account_active s.accounts (some id) with
      | error e => simp [rebuild_account_balance, hv] at hrb
      | ok q =>
        obtain ⟨id2, a⟩ := q
        obtain ⟨hoeq, hg, ha⟩ := validate_account_active_ok hv
        have hid : id2 = id := by
          simp only [Option.some.injEq] at hoeq
          exact hoeq.symm
        subst hid
        simp only [rebuild_account_balance, hv, Except.ok.injEq,
          Prod.mk.injEq] at hrb
        obtain ⟨hs', _⟩ := hrb
        rw [← hs']
        refine ⟨?_, htx, ?_⟩
        · dsimp only
          rw [setBalance_map_fst]
          exact hacc
        · intro e hmem hdle
          dsimp only at hmem ⊢
          have hnd2 : ((setBalance s.accounts id2
              ((rebuildRows id2 s.ledger).foldl
                (fun acc tx => acc + txEffect id2 tx) a.opening_balance)).map
              Prod.fst).Nodup := by
            rw [setBalance_map_fst]
            exact hacc
          have hget := mem_getAccount hnd2 hmem hdle
          by_cases hj : e.1 = id2
          · rw [hj, getAccount_setBalance_self, hg] at hget
            simp only [Option.map_some', Option.some.injEq] at hget
            rw [← hget]
            dsimp only
            rw [hj, rebuild_foldl_eq]
          · rw [getAccount_setBalance_ne _ _ _ _ hj] at hget
            exact hinv (e.1, e.2) (getAccount_mem hget).1 hdle

/-- Any sequence of engine operations preserves well-formedness. -/
theorem runOps_WF {s : BState} (h : WF s) (ops : List LOp) :
    WF (runOps s ops) := by
  induction ops generalizing s with
  | nil => exact h
  | cons op rest ih => exact ih (stepOp_WF h op)

/- ================================================================
   Scheduler lemmas
   ================================================================ -/

/-- A rule that is not paused into the future proceeds to the skip/post
logic. -/
theorem processRule_not_paused (now : Dt)
    (post : RecurringTransaction → ℤ → Except String Nat)
    (r : RecurringTransaction)
    (hpause : ∀ p, r.pause_until = some p → ¬ p.days > now.dateDays) :
    processRule now post r = processRuleUnpaused now post r := by
  cases hp : r.pause_until with
  | none => simp [processRule, hp]
  | some p => simp [processRule, hp, hpause p hp]

/- ================================================================
   The claims
   ================================================================ -/

/-- C7: `_calculate_next_due` adds `interval` months for "monthly" and
`12 * interval` months for "yearly", capping the day to the last valid day
of the target month while preserving time-of-day:
`advance("monthly",1, 2024-01-31 09:30)` is `2024-02-29 09:30` (leap year),
`advance("monthly",1, 2023-01-31 09:30)` is `2023-02-28 09:30`, and
`advance("yearly",1, 2024-02-29 09:30)` is `2025-02-28 09:30`; any frequency
other than daily/weekly/monthly/yearly fails with a validation error. -/
theorem month_end_capping :
    calculate_next_due "monthly" 1 (dt 2024 1 31 9 30 0 0)
        = .ok (dt 2024 2 29 9 30 0 0)
    ∧ calculate_next_due "monthly" 1 (dt 2023 1 31 9 30 0 0)
        = .ok (dt 2023 2 28 9 30 0 0)
    ∧ calculate_next_due "yearly" 1 (dt 2024 2 29 9 30 0 0)
        = .ok (dt 2025 2 28 9 30 0 0)
    ∧ ∀ f : String, f ≠ "daily" → f ≠ "weekly" → f ≠ "monthly" →
        f ≠ "yearly" → ∀ (i : Int) (d : Dt),
          calculate_next_due f i d = .error ("Invalid frequency: " ++ f) := by
  refine ⟨by decide, by decide, by decide, ?_⟩
  intro f h1 h2 h3 h4 i d
  simp [calculate_next_due, h1, h2, h3, h4]

theorem month_end_capping_witness :
    ("every_two_days" : String) ≠ "daily"
    ∧ calculate_next_due "every_two_days" 1 (dt 2026 1 1 0 0 0 0)
        = .error "Invalid frequency: every_two_days" :=
  ⟨by decide,
    month_end_capping.2.2.2 "every_two_days" (by decide) (by decide)
      (by decide) (by decide) 1 (dt 2026 1 1 0 0 0 0)⟩

/-- C4 (code bug): a due rule paused until a future date is *not*
recorded as skipped.  The pause branch of `run_due` evaluates
`rec.override_used`, a field the `RecurringTransaction` dataclass does not
define, so Python raises `AttributeError` before the skipped history row
or the pause branch's own update is written; the per-rule handler then
records a `failed` execution with the exception text, and the handler's
`update(..., last_run_status="failed")` is dropped by `update()`'s SAFE
filter, so the rule row is left completely unchanged.  No transaction is
posted, and `skip_next`, `override_amount`, `next_due` are indeed
untouched — but the history row says "failed" with the `AttributeError`
message, not "skipped" with the "paused untill date" message, and
`last_run_status` is never set to "skipped". -/
theorem pause_branch_records_failed :
    run_due nowRun postOk [pausedRule]
      = { rules := [pausedRule],
          history := [{ recurring_id := 7, run_date := nowRun,
                        amount_used := 100, status := "failed",
                        override_used := false,
                        posted_transaction_id := none,
                        message := attributeErrorMsg }],
          created_ids := [] } := by
  decide

/-- C5 (counterexample): a due rule with `override_amount = 50` whose
posting raises keeps its override — the run leaves the rule row entirely
unchanged (the handler's status update is dropped by `update()`'s SAFE
filter), so `override_amount` is *not* null after the failed run attempt,
contradicting the claim that it is cleared "win or lose". -/
theorem override_cleared_claim_false :
    (run_due nowRun postFail [overrideRule]).rules = [overrideRule]
    ∧ ¬ (run_due nowRun postFail [overrideRule]).rules.all
          (fun r => r.override_amount = none) := by
  decide

/-- C5 (amended): for a due rule with `override_amount` set that reaches
the posting branch of `run_due` (not paused, not `skip_next`),
`override_amount` is cleared exactly when the run fully succeeds (the
transaction posts and `next_due` advances); if the posting raises, the
exception handler records the failed history row but its
`update(..., last_run_status="failed")` is dropped by `update()`'s SAFE
filter, so the rule row — override included — is left unchanged and the
same override is applied again on the retry. -/
theorem override_cleared_only_on_success (now : Dt)
    (post : RecurringTransaction → ℤ → Except String Nat)
    (r : RecurringTransaction) (v : ℤ)
    (hpause : ∀ p, r.pause_until = some p → ¬ p.days > now.dateDays)
    (hskip : ¬ r.skip_next = 1) (hov : r.override_amount = some v) :
    (∀ (tid : Nat) (nd : Dt), post r v = .ok tid →
        calculate_next_due r.frequency r.interval_value r.next_due = .ok nd →
        (processRule now post r).rule.override_amount = none)
    ∧ (∀ e : String, post r v = .error e →
        (processRule now post r).rule = r
        ∧ (processRule now post r).rule.override_amount = some v) := by
  rw [processRule_not_paused now post r hpause]
  constructor
  · intro tid nd hpost hcalc
    simp [processRuleUnpaused, hskip, hov, hpost, hcalc]
  · intro e hpost
    simp [processRuleUnpaused, hskip, hov, hpost, failedOutcome]

theorem override_cleared_only_on_success_witness :
    ((∀ p, overrideRule.pause_until = some p → ¬ p.days > nowRun.dateDays)
      ∧ ¬ overrideRule.skip_next = 1
      ∧ overrideRule.override_amount = some 50)
    ∧ ((∀ (tid : Nat) (nd : Dt), postFail overrideRule 50 = .ok tid →
          calculate_next_due overrideRule.frequency overrideRule.interval_value
            overrideRule.next_due = .ok nd →
          (processRule nowRun postFail overrideRule).rule.override_amount = none)
        ∧ (∀ e : String, postFail overrideRule 50 = .error e →
            (processRule nowRun postFail overrideRule).rule = overrideRule
            ∧ (processRule nowRun postFail overrideRule).rule.override_amount
                = some 50)) :=
  ⟨⟨by decide, by decide, by decide⟩,
    override_cleared_only_on_success nowRun postFail overrideRule 50
      (by decide) (by decide) (by decide)⟩

/-- C6: one-shot skip consumption.  For a due rule with `skip_next` set
(and not paused), one `run_due` pass clears `skip_next` — the only change
to the rule row, since the branch's `last_run_status="skipped"` is dropped
by `update()`'s SAFE filter — records a `skipped` execution, posts no
transaction, and does not advance `next_due`; a second immediate pass over
the resulting rule (same `next_due`, `skip_next` now cleared) posts a
transaction normally: its id is returned, a `generated` row is recorded,
and `next_due` advances. -/
theorem skip_next_one_shot (now : Dt)
    (post : RecurringTransaction → ℤ → Except String Nat)
    (r r1 : RecurringTransaction) (tid : Nat) (nd : Dt)
    (hpause : ∀ p, r.pause_until = some p → ¬ p.days > now.dateDays)
    (hskip : r.skip_next = 1)
    (hr1 : r1 = { r with skip_next := 0 })
    (hpost : post r1 (r.override_amount.getD r.amount) = .ok tid)
    (hcalc : calculate_next_due r.frequency r.interval_value r.next_due = .ok nd) :
    (processRule now post r).rule = r1
    ∧ (processRule now post r).created_ids = []
    ∧ (processRule now post r).history
        = [{ recurring_id := r.recurring_id, run_date := now,
             amount_used := r.override_amount.getD r.amount,
             status := "skipped",
             override_used := decide (r.override_amount.getD 0 ≠ 0),
             posted_transaction_id := none,
             message := "skip_next flag consumed." }]
    ∧ r1.next_due = r.next_due
    ∧ (processRule now post r1).created_ids = [tid]
    ∧ (processRule now post r1).history.map HistoryRec.status = ["generated"]
    ∧ (processRule now post r1).rule.next_due = nd := by
  subst hr1
  have hstep1 := processRule_not_paused now post r hpause
  have hstep2 := processRule_not_paused now post
    { r with skip_next := 0 } hpause
  rw [hstep1, hstep2]
  refine ⟨?_, ?_, ?_, rfl, ?_, ?_, ?_⟩
  · simp [processRuleUnpaused, hskip]
  · simp [processRuleUnpaused, hskip]
  · simp [processRuleUnpaused, hskip]
  · simp [processRuleUnpaused, hpost, hcalc]
  · simp [processRuleUnpaused, hpost, hcalc]
  · simp [processRuleUnpaused, hpost, hcalc]

theorem skip_next_one_shot_witness :
    ((∀ p, skipRule.pause_until = some p → ¬ p.days > nowRun.dateDays)
      ∧ skipRule.skip_next = 1
      ∧ postOk { skipRule with skip_next := 0 }
          (skipRule.override_amount.getD skipRule.amount) = .ok 99
      ∧ calculate_next_due skipRule.frequency skipRule.interval_value
          skipRule.next_due = .ok (dt 2026 11 1 0 0 0 0))
    ∧ ((processRule nowRun postOk skipRule).rule
          = { skipRule with skip_next := 0 }
        ∧ (processRule nowRun postOk skipRule).created_ids = []
        ∧ (processRule nowRun postOk skipRule).history
            = [{ recurring_id := skipRule.recurring_id, run_date := nowRun,
                 amount_used := skipRule.override_amount.getD skipRule.amount,
                 status := "skipped",
                 override_used := decide (skipRule.override_amount.getD 0 ≠ 0),
                 posted_transaction_id := none,
                 message := "skip_next flag consumed." }]
        ∧ ({ skipRule with skip_next := 0 }
              : RecurringTransaction).next_due = skipRule.next_due
        ∧ (processRule nowRun postOk
            { skipRule with skip_next := 0 }).created_ids = [99]
        ∧ (processRule nowRun postOk
            { skipRule with skip_next := 0 }).history.map HistoryRec.status
            = ["generated"]
        ∧ (processRule nowRun postOk
            { skipRule with skip_next := 0 }).rule.next_due
            = dt 2026 11 1 0 0 0 0) :=
  ⟨⟨by decide, by decide, by decide, by decide⟩,
    skip_next_one_shot nowRun postOk skipRule
      { skipRule with skip_next := 0 } 99
      (dt 2026 11 1 0 0 0 0) (by decide) (by decide) rfl (by decide) (by decide)⟩

/-- C10 (implicit): skip does not consume the override.  For a due rule
with both `skip_next` and `override_amount` set, the skip branch clears
only `skip_next` (its `last_run_status="skipped"` is dropped by `update()`'s
SAFE filter, so `skip_next := 0` really is the whole rule-row change) — the
skipped history row reports the override amount as `amount_used`,
`override_amount` stays set on the rule, and the next actual posting run
posts with the override amount (consuming it then). -/
theorem skip_preserves_override (now : Dt)
    (post : RecurringTransaction → ℤ → Except String Nat)
    (r r1 : RecurringTransaction) (v : ℤ) (tid : Nat) (nd : Dt)
    (hpause : ∀ p, r.pause_until = some p → ¬ p.days > now.dateDays)
    (hskip : r.skip_next = 1) (hov : r.override_amount = some v)
    (hr1 : r1 = { r with skip_next := 0 })
    (hpost : post r1 v = .ok tid)
    (hcalc : calculate_next_due r.frequency r.interval_value r.next_due = .ok nd) :
    (processRule now post r).rule = r1
    ∧ r1.override_amount = some v
    ∧ r1.skip_next = 0
    ∧ r1.next_due = r.next_due
    ∧ (processRule now post r).history.map HistoryRec.amount_used = [v]
    ∧ (processRule now post r).history.map HistoryRec.status = ["skipped"]
    ∧ (processRule now post r1).history
        = [{ recurring_id := r.recurring_id, run_date := now,
             amount_used := v, status := "generated", override_used := true,
             posted_transaction_id := some tid,
             message := "Auto-generated by recurring runner." }]
    ∧ (processRule now post r1).rule.override_amount = none := by
  subst hr1
  rw [hov] at hpost
  have hstep1 := processRule_not_paused now post r hpause
  have hstep2 := processRule_not_paused now post
    { r with skip_next := 0 } hpause
  rw [hstep1, hstep2]
  refine ⟨?_, ?_, rfl, rfl, ?_, ?_, ?_, ?_⟩
  · simp [processRuleUnpaused, hskip]
  · simp [hov]
  · simp [processRuleUnpaused, hskip, hov]
  · simp [processRuleUnpaused, hskip]
  · simp [processRuleUnpaused, hov, hpost, hcalc]
  · simp [processRuleUnpaused, hov, hpost, hcalc]

theorem skip_preserves_override_witness :
    ((∀ p, skipOverrideRule.pause_until = some p → ¬ p.days > nowRun.dateDays)
      ∧ skipOverrideRule.skip_next = 1
      ∧ skipOverrideRule.override_amount = some 50
      ∧ postOk { skipOverrideRule with skip_next := 0 } 50 = .ok 99
      ∧ calculate_next_due skipOverrideRule.frequency
          skipOverrideRule.interval_value skipOverrideRule.next_due
          = .ok (dt 2026 11 1 0 0 0 0))
    ∧ ((processRule nowRun postOk skipOverrideRule).rule
          = { skipOverrideRule with skip_next := 0 }
        ∧ ({ skipOverrideRule with skip_next := 0 }
              : RecurringTransaction).override_amount = some 50
        ∧ ({ skipOverrideRule with skip_next := 0 }
              : RecurringTransaction).skip_next = 0
        ∧ ({ skipOverrideRule with skip_next := 0 }
              : RecurringTransaction).next_due = skipOverrideRule.next_due
        ∧ (processRule nowRun postOk skipOverrideRule).history.map
            HistoryRec.amount_used = [50]
        ∧ (processRule nowRun postOk skipOverrideRule).history.map
            HistoryRec.status = ["skipped"]
        ∧ (processRule nowRun postOk
              { skipOverrideRule with skip_next := 0 }).history
            = [{ recurring_id := skipOverrideRule.recurring_id,
                 run_date := nowRun, amount_used := 50, status := "generated",
                 override_used := true, posted_transaction_id := some 99,
                 message := "Auto-generated by recurring runner." }]
        ∧ (processRule nowRun postOk
              { skipOverrideRule with skip_next := 0 }).rule.override_amount
            = none) :=
  ⟨⟨by decide, by decide, by decide, by decide, by decide⟩,
    skip_preserves_override nowRun postOk skipOverrideRule
      { skipOverrideRule with skip_next := 0 }
      50 99 (dt 2026 11 1 0 0 0 0) (by decide) (by decide) (by decide) rfl
      (by decide) (by decide)⟩

/-- C8: batch isolation.  `run_due` processes each due rule independently:
the ids of a concatenated batch are the concatenation of the ids (one
rule's failure cannot abort the rest), and in a batch of three due posting
rules where the second's posting raises, the first and third post (their
ids are returned, their rules advance: `last_run` set, `next_due` moved,
override cleared) while the second's rule row is left unchanged (the
handler's status write is dropped by `update()`'s SAFE filter) and it gets
exactly one `failed` history row carrying the exception message. -/
theorem batch_isolation (now : Dt)
    (post : RecurringTransaction → ℤ → Except String Nat)
    (r1 r2 r3 : RecurringTransaction) (id1 id3 : Nat) (e : String)
    (nd1 nd3 : Dt)
    (hdue1 : isDue now r1 = true) (hdue2 : isDue now r2 = true)
    (hdue3 : isDue now r3 = true)
    (hp1 : r1.pause_until = none) (hp2 : r2.pause_until = none)
    (hp3 : r3.pause_until = none)
    (hs1 : ¬ r1.skip_next = 1) (hs2 : ¬ r2.skip_next = 1)
    (hs3 : ¬ r3.skip_next = 1)
    (hpost1 : post r1 (r1.override_amount.getD r1.amount) = .ok id1)
    (hpost2 : post r2 (r2.override_amount.getD r2.amount) = .error e)
    (hpost3 : post r3 (r3.override_amount.getD r3.amount) = .ok id3)
    (hc1 : calculate_next_due r1.frequency r1.interval_value r1.next_due = .ok nd1)
    (hc3 : calculate_next_due r3.frequency r3.interval_value r3.next_due = .ok nd3) :
    (∀ rules1 rules2 : List RecurringTransaction,
        (run_due now post (rules1 ++ rules2)).created_ids
          = (run_due now post rules1).created_ids
            ++ (run_due now post rules2).created_ids)
    ∧ (run_due now post [r1, r2, r3]).created_ids = [id1, id3]
    ∧ (run_due now post [r1, r2, r3]).history.map
        (fun hh => (hh.recurring_id, hh.status, hh.posted_transaction_id))
        = [(r1.recurring_id, "generated", some id1),
           (r2.recurring_id, "failed", none),
           (r3.recurring_id, "generated", some id3)]
    ∧ (run_due now post [r1, r2, r3]).history.map HistoryRec.message
        = ["Auto-generated by recurring runner.", e,
           "Auto-generated by recurring runner."]
    ∧ (run_due now post [r1, r2, r3]).rules
        = [{ r1 with last_run := some now, next_due := nd1, override_amount := none },
           r2,
           { r3 with last_run := some now, next_due := nd3, override_amount := none }] := by
  refine ⟨?_, ?_, ?_, ?_, ?_⟩
  · intro rules1 rules2
    simp [run_due]
  all_goals
    simp [run_due, hdue1, hdue2, hdue3, processRule, hp1, hp2, hp3,
      processRuleUnpaused, hs1, hs2, hs3, hpost1, hpost2, hpost3, hc1, hc3,
      failedOutcome]

theorem batch_isolation_witness :
    (isDue nowRun batchRule1 = true ∧ isDue nowRun batchRule2 = true
      ∧ isDue nowRun batchRule3 = true
      ∧ postSecondFails batchRule1
          (batchRule1.override_amount.getD batchRule1.amount) = .ok 101
      ∧ postSecondFails batchRule2
          (batchRule2.override_amount.getD batchRule2.amount)
          = .error "insufficient funds"
      ∧ postSecondFails batchRule3
          (batchRule3.override_amount.getD batchRule3.amount) = .ok 103)
    ∧ (run_due nowRun postSecondFails [batchRule1, batchRule2, batchRule3]).created_ids
        = [101, 103]
    ∧ (run_due nowRun postSecondFails [batchRule1, batchRule2, batchRule3]).history.map
        (fun hh => (hh.recurring_id, hh.status, hh.posted_transaction_id))
        = [(batchRule1.recurring_id, "generated", some 101),
           (batchRule2.recurring_id, "failed", none),
           (batchRule3.recurring_id, "generated", some 103)] :=
  ⟨⟨by decide, by decide, by decide, by decide, by decide, by decide⟩,
    (batch_isolation nowRun postSecondFails batchRule1 batchRule2 batchRule3
      101 103 "insufficient funds" (dt 2026 11 1 0 0 0 0) (dt 2026 11 1 0 0 0 0)
      (by decide) (by decide) (by decide) (by decide) (by decide) (by decide)
      (by decide) (by decide) (by decide) (by decide) (by decide) (by decide)
      (by decide) (by decide)).2.1,
    (batch_isolation nowRun postSecondFails batchRule1 batchRule2 batchRule3
      101 103 "insufficient funds" (dt 2026 11 1 0 0 0 0) (dt 2026 11 1 0 0 0 0)
      (by decide) (by decide) (by decide) (by decide) (by decide) (by decide)
      (by decide) (by decide) (by decide) (by decide) (by decide) (by decide)
      (by decide) (by decide)).2.2.1⟩

/-- C3: overdraft gate.  For an active account and a debit-type operation
(`expense`, `debt_repaid`) whose amount exceeds the current balance:
without overdraft, `apply_transaction_change` fails with
`InsufficientFundsError` and the world state (hence the balance) is
unchanged; with overdraft the debit succeeds and the resulting balance is
negative. -/
theorem overdraft_gate (m : AccountMap) (t : String) (a : Nat)
    (acct : Account) (amount : ℤ)
    (ht : t = "expense" ∨ t = "debt_repaid") (ha0 : ¬ a = 0)
    (hg : getAccount m a = some acct) (hact : acct.is_active = true)
    (hamt : acct.balance < amount) :
    apply_transaction_change m t amount (some a) none none false
        = .error .insufficientFunds
    ∧ (∀ (tid : Nat) (l : List Tx),
        stepOp { accounts := m, ledger := l }
          (.apply { transaction_id := tid, transaction_type := t,
                    amount := amount, account_id := some a,
                    source_account_id := none, destination_account_id := none,
                    is_deleted := false } false)
          = { accounts := m, ledger := l })
    ∧ ∃ m' c, apply_transaction_change m t amount (some a) none none true
          = .ok (m', .single c)
        ∧ getAccount m' a = some { acct with balance := acct.balance - amount }
        ∧ c.new_balance = acct.balance - amount
        ∧ c.new_balance < 0 := by
  have hval : validate_account_active m (some a) = .ok (a, acct) := by
    simp [validate_account_active, hg, hact]
  have herr : apply_transaction_change m t amount (some a) none none false
      = .error .insufficientFunds := by
    rcases ht with h | h <;> subst h <;>
      simp [apply_transaction_change, ha0, apply_debit, check_sufficient_funds,
        hval, hamt]
  have hdeb : apply_debit m (some a) amount true
      = .ok (setBalance m a (acct.balance - amount),
             { account_id := a, old_balance := acct.balance,
               new_balance := acct.balance - amount, change := -amount }) := by
    simp [apply_debit, check_sufficient_funds, hval]
  refine ⟨herr, ?_, ?_⟩
  · intro tid l
    simp only [stepOp]
    by_cases hdup : l.any (fun t' => decide (t'.transaction_id = tid)) = true
    · rw [if_pos hdup]
    · rw [if_neg hdup]
      rw [herr]
  · refine ⟨setBalance m a (acct.balance - amount),
      { account_id := a, old_balance := acct.balance,
        new_balance := acct.balance - amount, change := -amount }, ?_, ?_, rfl, ?_⟩
    · rcases ht with h | h <;> subst h <;>
        simp [apply_transaction_change, ha0, hdeb]
    · rw [getAccount_setBalance_self, hg]
      rfl
    · exact sub_neg.mpr hamt

theorem overdraft_gate_witness :
    (("expense" : String) = "expense" ∨ ("expense" : String) = "debt_repaid")
    ∧ ¬ (1 : Nat) = 0 ∧ getAccount mW 1 = some acctA
    ∧ acctA.is_active = true ∧ acctA.balance < 600
    ∧ (apply_transaction_change mW "expense" 600 (some 1) none none false
          = .error .insufficientFunds
        ∧ (∀ (tid : Nat) (l : List Tx),
            stepOp { accounts := mW, ledger := l }
              (.apply { transaction_id := tid, transaction_type := "expense",
                        amount := 600, account_id := some 1,
                        source_account_id := none,
                        destination_account_id := none,
                        is_deleted := false } false)
              = { accounts := mW, ledger := l })
        ∧ ∃ m' c, apply_transaction_change mW "expense" 600 (some 1) none none true
              = .ok (m', .single c)
            ∧ getAccount m' 1 = some { acctA with balance := acctA.balance - 600 }
            ∧ c.new_balance = acctA.balance - 600
            ∧ c.new_balance < 0) :=
  ⟨by decide, by decide, by decide, by decide, by decide,
    overdraft_gate mW "expense" 1 acctA 600 (by decide) (by decide) (by decide)
      (by decide) (by decide)⟩

/-- C9 (code bug): rebuild is *not* idempotent in the code.  On the
drifted world `sReb` a first rebuild of account 1 succeeds: the recomputed
balance is 800, the stored 777, so the UPDATE
`SET source='BALANCE_REBUILD', balance=800` changes the row and the call
returns the delta report.  Running it again immediately, with no
intervening transactions, recomputes the same 800 and issues the identical
UPDATE against a row that already holds exactly those values; the UPDATE
changes 0 rows, `_execute` returns that row count, and `update_account`
raises `AccountNotFoundError("Account 1 not found or unchanged.")`
(account_model.py:213-214) — instead of returning the same balance with a
zero difference as the claim states. -/
theorem rebuild_second_call_raises :
    rebuild_account_balance_checked sReb "expense" 1 = .ok (sReb1, rReb1)
    ∧ rebuild_account_balance_checked sReb1 "BALANCE_REBUILD" 1
        = .error (.accountNotFound "Account 1 not found or unchanged.") := by
  decide

/-- C2: apply/reverse round-trip.  For every transaction type (including
the transfer-shaped types), a successful `apply_transaction_change`
followed by `reverse_transaction_change` with the same transaction data
succeeds and restores the pre-apply balance of every account exactly (in
particular both the source and the destination of a transfer). -/
theorem apply_reverse_round_trip {m : AccountMap} {tx : Tx} {allow : Bool}
    {m2 : AccountMap} {r : ApplyResult}
    (h : apply_transaction_change m tx.transaction_type tx.amount tx.account_id
      tx.source_account_id tx.destination_account_id allow = .ok (m2, r)) :
    ∃ m3 r2, reverse_transaction_change m2 tx = .ok (m3, r2)
      ∧ ∀ j, getAccount m3 j = getAccount m j := by
  obtain ⟨m3, r2, hrev⟩ := reverse_ok_after_apply h
  refine ⟨m3, r2, hrev, ?_⟩
  intro j
  rw [reverse_transaction_change_delta hrev j,
    apply_transaction_change_delta h j]
  cases getAccount m j with
  | none => rfl
  | some a => simp [account_eta]

theorem apply_reverse_round_trip_witness :
    apply_transaction_change mW txW.transaction_type txW.amount txW.account_id
        txW.source_account_id txW.destination_account_id false = .ok (mW2, rW)
    ∧ ∃ m3 r2, reverse_transaction_change mW2 txW = .ok (m3, r2)
        ∧ ∀ j, getAccount m3 j = getAccount mW j :=
  ⟨by decide, @apply_reverse_round_trip mW txW false mW2 rW (by decide)⟩

/-- C1: balance invariant.  Starting from any well-formed world (unique
primary keys, invariant holding — e.g. fresh accounts whose balance equals
their opening balance over an empty ledger), after any sequence of
`apply_transaction_change` / `reverse_transaction_change` /
`rebuild_account_balance` operations, every visible account's stored
balance equals `opening_balance` plus the signed sum of effects of all
non-deleted transactions referencing it (income/debt_borrowed add,
expense/debt_repaid subtract, transfer-shaped types subtract for the source
account and add for the destination). -/
theorem balance_invariant_preserved (s : BState) (ops : List LOp)
    (h : WF s) :
    ∀ e ∈ (runOps s ops).accounts, e.2.is_deleted = false →
      e.2.balance = e.2.opening_balance
        + ledgerSum e.1 (runOps s ops).ledger :=
  (runOps_WF h ops).2.2

theorem balance_invariant_preserved_witness :
    WF sInit
    ∧ (∀ e ∈ (runOps sInit opsDemo).accounts, e.2.is_deleted = false →
        e.2.balance = e.2.opening_balance
          + ledgerSum e.1 (runOps sInit opsDemo).ledger) :=
  ⟨by decide, balance_invariant_preserved sInit opsDemo (by decide)⟩

end BudgetBoy
